import Mathlib

/-!
Shallow embedding of the transcript-table interpretation engine of this
repository (src/app.py, with the earlier revision src/update/app.py embedded
where a claim depends on it).  Cells are Lean strings; Python floats are
modelled as exact fractions for every comparison the program performs (the
numbers compared are decimal literals and small ratios, on which float and
exact comparison agree).  The one place where IEEE rounding is observable —
the running float accumulation of the credit and grade-point totals — is
modelled separately by an exact binary64 model (round to nearest, ties to
even) in the aggregation section: the exact fractions give the idealised
value of each total, the binary64 model the double the program returns.
-/

/-! ### Python-style character and string primitives -/

/-- Whitespace characters recognised by Python's regular-expression class
for whitespace on strings (ASCII whitespace plus the Unicode space
characters, including the full-width space U+3000 that src/app.py also lists
explicitly). -/
def pyIsSpace (c : Char) : Bool :=
  c == ' ' || c == '\t' || c == '\n' || c == '\x0d' || c == '\x0b' || c == '\x0c' ||
  c == '\x85' || c == '\xa0' || c == '\u1680' ||
  ('\u2000' ≤ c && c ≤ '\u200a') ||
  c == '\u2028' || c == '\u2029' || c == '\u202f' || c == '\u205f' || c == '\u3000'

/-- Substitution of every maximal whitespace run by a single ASCII space,
as performed by the regular-expression substitution in normalize_text.  The
Boolean flag records whether the previous character was part of a
whitespace run (structural recursion; equivalent to replacing each run). -/
def collapseWsAux : Bool → List Char → List Char
  | _, [] => []
  | inRun, c :: t =>
    if pyIsSpace c then
      if inRun then collapseWsAux true t else ' ' :: collapseWsAux true t
    else c :: collapseWsAux false t

/-- Replace every whitespace run by one ASCII space. -/
def collapseWs (l : List Char) : List Char := collapseWsAux false l

/-- Remove leading and trailing ASCII spaces (after collapseWs the only
whitespace left is the ASCII space, so this is Python's strip()). -/
def trimSpaces (l : List Char) : List Char :=
  ((l.dropWhile (· == ' ')).reverse.dropWhile (· == ' ')).reverse

/-- normalize_text of src/app.py (src/update/app.py is identical on string
input): collapse every whitespace run, including full-width spaces and
newlines, to a single space, then strip both ends.  Input cells of the
embedding are already strings, so the None / Text-object coercion branches
of the Python function are identity here. -/
def normalize_text (s : String) : String :=
  ⟨trimSpaces (collapseWs s.data)⟩

/-- ASCII lower-casing of one character, the effect of Python lower() on
the alphabets this program manipulates (CJK characters are fixed points). -/
def lowChar (c : Char) : Char :=
  if 'A' ≤ c && c ≤ 'Z' then Char.ofNat (c.toNat + 32) else c

/-- ASCII upper-casing of one character (Python upper()). -/
def upChar (c : Char) : Char :=
  if 'a' ≤ c && c ≤ 'z' then Char.ofNat (c.toNat - 32) else c

/-- Python lower() on a string. -/
def lowStr (s : String) : String := ⟨s.data.map lowChar⟩

/-- Python upper() on a string. -/
def upStr (s : String) : String := ⟨s.data.map upChar⟩

/-- Does the second list occur at the head of the first one. -/
def startsWithChars : List Char → List Char → Bool
  | _, [] => true
  | [], _ :: _ => false
  | c :: t, d :: u => c == d && startsWithChars t u

/-- Python's substring test x in s. -/
def containsChars : List Char → List Char → Bool
  | [], pat => pat.isEmpty
  | c :: t, pat => startsWithChars (c :: t) pat || containsChars t pat

/-- Python's substring test on strings. -/
def strContains (s pat : String) : Bool := containsChars s.data pat.data

/-- Python str.replace(pat, empty), fuelled so the recursion is structural:
remove every non-overlapping occurrence of pat, scanning left to right.
Each step consumes at least one character, so fuel equal to the length of
the scanned list makes the fuel-exhausted branch unreachable. -/
def removeAllSubF (pat : List Char) : Nat → List Char → List Char
  | _, [] => []
  | 0, l => l
  | fuel + 1, c :: t =>
    if pat ≠ [] ∧ startsWithChars (c :: t) pat = true then
      removeAllSubF pat fuel (t.drop (pat.length - 1))
    else c :: removeAllSubF pat fuel t

/-- Python str.replace(pat, empty): remove every non-overlapping occurrence
of pat, scanning left to right.  Only invoked with a non-empty pat. -/
def removeAllSub (pat l : List Char) : List Char := removeAllSubF pat l.length l

/-- Python str.isdigit for the ASCII material this program sees. -/
def isAllDigits (l : List Char) : Bool := !l.isEmpty && l.all Char.isDigit

/-- A character of the CJK unified block, the class used by the program to
detect an ideographic character. -/
def isCJK (c : Char) : Bool := '一' ≤ c && c ≤ '龥'

/-- Does the string contain a CJK character (the search for the ideographic
class in the source). -/
def hasCJK (l : List Char) : Bool := l.any isCJK

/-! ### Exact fractions standing for Python floats

All numbers the program compares are decimal fractions or ratios of small
naturals, on which exact fraction arithmetic and IEEE float arithmetic give
identical comparison results, so the embedding uses exact fractions for
comparisons.  Accumulated sums are different: IEEE addition rounds after
every step and is not associative, so the fractions stand for the exact
values of sums, while the doubles the program actually accumulates are
modelled by the binary64 model of the aggregation section. -/

/-- An exact fraction: integer numerator over a positive natural
denominator, not necessarily reduced. -/
structure Dec where
  num : Int
  den : Nat
  pos : 0 < den

theorem Dec.ext2 : ∀ {a b : Dec}, a.num = b.num → a.den = b.den → a = b
  | ⟨_, _, _⟩, ⟨_, _, _⟩, rfl, rfl => rfl

instance : DecidableEq Dec := fun a b =>
  decidable_of_iff (a.num = b.num ∧ a.den = b.den)
    ⟨fun h => Dec.ext2 h.1 h.2, fun h => by cases h; exact ⟨rfl, rfl⟩⟩

/-- The fraction with value zero. -/
def decZero : Dec := ⟨0, 1, Nat.one_pos⟩

/-- A natural number as a fraction. -/
def decN (n : Nat) : Dec := ⟨n, 1, Nat.one_pos⟩

/-- Addition of fractions without reduction: the exact value of the float
additions the program performs, without the IEEE rounding of each step
(rounded accumulation is modelled by f64Add in the aggregation section).
With decZero this forms a commutative monoid, so statements about the
exact values of totals may commute sums; statements about the doubles the
program returns may not. -/
instance : Zero Dec := ⟨decZero⟩

instance : Add Dec :=
  ⟨fun a b => ⟨a.num * b.den + b.num * a.den, a.den * b.den, Nat.mul_pos a.pos b.pos⟩⟩

instance : AddCommMonoid Dec where
  add := (· + ·)
  zero := 0
  add_assoc a b c := by
    apply Dec.ext2
    · show (a.num * b.den + b.num * a.den) * ((c.den : Nat) : Int) +
          c.num * ((a.den * b.den : Nat) : Int) =
        a.num * ((b.den * c.den : Nat) : Int) +
          (b.num * c.den + c.num * b.den) * ((a.den : Nat) : Int)
      push_cast
      ring
    · show a.den * b.den * c.den = a.den * (b.den * c.den)
      exact Nat.mul_assoc a.den b.den c.den
  zero_add a := by
    apply Dec.ext2
    · show (0 : Int) * a.den + a.num * 1 = a.num
      ring
    · show 1 * a.den = a.den
      exact Nat.one_mul a.den
  add_zero a := by
    apply Dec.ext2
    · show a.num * 1 + (0 : Int) * a.den = a.num
      ring
    · show a.den * 1 = a.den
      exact Nat.mul_one a.den
  add_comm a b := by
    apply Dec.ext2
    · show a.num * b.den + b.num * a.den = b.num * a.den + a.num * b.den
      ring
    · show a.den * b.den = b.den * a.den
      exact Nat.mul_comm a.den b.den
  nsmul := nsmulRec
  nsmul_zero := fun _ => rfl
  nsmul_succ := fun _ _ => rfl

instance : Mul Dec :=
  ⟨fun a b => ⟨a.num * b.num, a.den * b.den, Nat.mul_pos a.pos b.pos⟩⟩

/-- Numeric less-or-equal on fractions (cross multiplication; denominators
are positive). -/
def Dec.leB (a b : Dec) : Bool := a.num * b.den ≤ b.num * a.den

/-- Numeric strict less-than on fractions. -/
def Dec.ltB (a b : Dec) : Bool := a.num * b.den < b.num * a.den

/-- Numeric equality on fractions. -/
def Dec.eqB (a b : Dec) : Bool := a.num * b.den == b.num * a.den

/-- The rational value of a fraction. -/
def Dec.toRat (a : Dec) : ℚ := (a.num : ℚ) / (a.den : ℚ)

theorem Dec.den_ne (a : Dec) : (a.den : ℚ) ≠ 0 := by
  have h := a.pos
  exact_mod_cast Nat.pos_iff_ne_zero.mp h

/-! ### Number and grade tokens (the regular expressions of the parser) -/

/-- Anchored match of the pattern digits-dot-digits-optional at the head of
the list: Python regex digits+ with an optional fractional part.  Returns
the matched characters and the rest.  Greedy matching is exact here: no
backtracking can succeed where the greedy match fails. -/
def numTokenAt (l : List Char) : Option (List Char × List Char) :=
  let ds := l.takeWhile Char.isDigit
  if ds.isEmpty then none
  else
    match l.drop ds.length with
    | '.' :: r2 =>
      let fs := r2.takeWhile Char.isDigit
      if fs.isEmpty then some (ds, l.drop ds.length)
      else some (ds ++ '.' :: fs, r2.drop fs.length)
    | rest => some (ds, rest)

/-- Leftmost (re.search) match of the number pattern: the whole match. -/
def searchNumToken : List Char → Option (List Char)
  | [] => none
  | c :: t =>
    match numTokenAt (c :: t) with
    | some (m, _) => some m
    | none => searchNumToken t

/-- Natural value of a run of decimal digits. -/
def natOfDigits (l : List Char) : Nat := l.foldl (fun a c => a * 10 + (c.toNat - 48)) 0

/-- Python float() of a matched number token (digits with an optional
dot-digits fractional part), as an exact fraction. -/
def decOfNumToken (l : List Char) : Dec :=
  let ip := l.takeWhile (fun c => c ≠ '.')
  match l.drop ip.length with
  | '.' :: fs =>
    ⟨natOfDigits ip * 10 ^ fs.length + natOfDigits fs, 10 ^ fs.length,
      pow_pos (by norm_num) fs.length⟩
  | _ => ⟨natOfDigits ip, 1, Nat.one_pos⟩

/-- Anchored match of a lower-case letter with an optional plus or minus
modifier (the class used by src/app.py on lower-cased text). -/
def lowGradeAt (l : List Char) : Option (List Char × List Char) :=
  match l with
  | [] => none
  | c :: t =>
    if 'a' ≤ c && c ≤ 'z' then
      match t with
      | m :: u => if m == '+' || m == '-' then some ([c, m], u) else some ([c], t)
      | [] => some ([c], [])
    else none

/-- Leftmost match of the lower-case letter-grade pattern. -/
def searchLowGrade : List Char → Option (List Char)
  | [] => none
  | c :: t =>
    match lowGradeAt (c :: t) with
    | some (m, _) => some m
    | none => searchLowGrade t

/-- Letter of the explicit A-to-F grade class (both cases), used by the
full-match grade test and by src/update/app.py. -/
def isAFLetter (c : Char) : Bool := ('A' ≤ c && c ≤ 'F') || ('a' ≤ c && c ≤ 'f')

/-- Full match of the pattern A-to-F letter with optional modifier. -/
def isGradeToken : List Char → Bool
  | [c] => isAFLetter c
  | [c, m] => isAFLetter c && (m == '+' || m == '-')
  | _ => false

/-- Full match of the number pattern. -/
def isNumToken (l : List Char) : Bool :=
  match numTokenAt l with
  | some (_, []) => true
  | _ => false

/-- Full match of the pattern: three to eight ASCII letters or digits. -/
def isAlnumToken38 (l : List Char) : Bool :=
  decide (3 ≤ l.length) && decide (l.length ≤ 8) && l.all (fun c => c.isAlpha || c.isDigit)

/-- Python str.replace(dot, empty, 1): drop the first dot only. -/
def removeFirstDot : List Char → List Char
  | [] => []
  | '.' :: t => t
  | c :: t => c :: removeFirstDot t

/-! ### The composite field parser of src/app.py -/

/-- First pattern of parse_credit_and_gpa: grade letter on the left, credit
on the right, accepted only with the credit in the zero-to-five range. -/
def parseB1 (tc : List Char) : Option (Dec × String) :=
  match lowGradeAt tc with
  | some (g, rest) =>
    match numTokenAt (rest.dropWhile pyIsSpace) with
    | some (n, _) =>
      if Dec.leB decZero (decOfNumToken n) && Dec.leB (decOfNumToken n) (decN 5) then
        some (decOfNumToken n, upStr ⟨g⟩)
      else none
    | none => none
  | none => none

/-- Second pattern: credit on the left, grade letter on the right, same
acceptance bound. -/
def parseB2 (tc : List Char) : Option (Dec × String) :=
  match numTokenAt tc with
  | some (n, rest) =>
    match lowGradeAt (rest.dropWhile pyIsSpace) with
    | some (g, _) =>
      if Dec.leB decZero (decOfNumToken n) && Dec.leB (decOfNumToken n) (decN 5) then
        some (decOfNumToken n, upStr ⟨g⟩)
      else none
    | none => none
  | none => none

/-- Third pattern: any bare number in range as the credit; the grade is then
searched in the text with every occurrence of the matched number removed. -/
def parseB3 (tc : List Char) : Option (Dec × String) :=
  match searchNumToken tc with
  | some m =>
    if Dec.leB decZero (decOfNumToken m) && Dec.leB (decOfNumToken m) (decN 5) then
      match searchLowGrade (removeAllSub m tc) with
      | some g => some (decOfNumToken m, upStr ⟨g⟩)
      | none => some (decOfNumToken m, "")
    else none
  | none => none

/-- Fourth pattern: a bare letter grade alone. -/
def parseB4 (tc : List Char) : Option (Dec × String) :=
  match searchLowGrade tc with
  | some g => some (decZero, upStr ⟨g⟩)
  | none => none

/-- The cleaned text the parser works on: normalized then lower-cased. -/
def parseClean (text : String) : String := lowStr (normalize_text text)

/-- The pass or exempt keyword test opening parse_credit_and_gpa. -/
def parseHasPassKw (s : String) : Bool :=
  strContains s "通過" || strContains s "抵免" ||
  strContains s "pass" || strContains s "exempt"

/-- parse_credit_and_gpa of src/app.py: normalize and lower-case the cell,
return the pass or exempt text as-is with zero credit when a pass keyword
occurs, otherwise try the four patterns in order; on no match return zero
credit and the empty grade. -/
def parse_credit_and_gpa (text : String) : Dec × String :=
  if parseHasPassKw (parseClean text) then
    (decZero, parseClean text)
  else
    match parseB1 (parseClean text).data with
    | some r => r
    | none =>
      match parseB2 (parseClean text).data with
      | some r => r
      | none =>
        match parseB3 (parseClean text).data with
        | some r => r
        | none =>
          match parseB4 (parseClean text).data with
          | some r => r
          | none => (decZero, "")

/-! ### Bridge between Boolean fraction comparisons and rational values -/

theorem Dec.leB_iff {a b : Dec} : Dec.leB a b = true ↔ a.toRat ≤ b.toRat := by
  have ha : (0 : ℚ) < a.den := by exact_mod_cast a.pos
  have hb : (0 : ℚ) < b.den := by exact_mod_cast b.pos
  simp only [Dec.leB, Dec.toRat, decide_eq_true_eq]
  rw [div_le_div_iff₀ ha hb]
  exact_mod_cast Iff.rfl

theorem decZero_toRat : decZero.toRat = 0 := by norm_num [decZero, Dec.toRat]

theorem decN_toRat (n : Nat) : (decN n).toRat = n := by norm_num [decN, Dec.toRat]

/-- Each guarded pattern of the parser only returns a credit in range. -/
theorem parseB1_range {tc : List Char} {r : Dec × String} (h : parseB1 tc = some r) :
    Dec.leB decZero r.1 = true ∧ Dec.leB r.1 (decN 5) = true := by
  unfold parseB1 at h
  repeat' split at h
  all_goals first
    | exact Option.noConfusion h
    | (injection h with h2
       subst h2
       dsimp only
       rw [← Bool.and_eq_true]
       assumption)
    | (injection h with h2; subst h2; dsimp only; exact ⟨by decide, by decide⟩)

theorem parseB2_range {tc : List Char} {r : Dec × String} (h : parseB2 tc = some r) :
    Dec.leB decZero r.1 = true ∧ Dec.leB r.1 (decN 5) = true := by
  unfold parseB2 at h
  repeat' split at h
  all_goals first
    | exact Option.noConfusion h
    | (injection h with h2
       subst h2
       dsimp only
       rw [← Bool.and_eq_true]
       assumption)
    | (injection h with h2; subst h2; dsimp only; exact ⟨by decide, by decide⟩)

theorem parseB3_range {tc : List Char} {r : Dec × String} (h : parseB3 tc = some r) :
    Dec.leB decZero r.1 = true ∧ Dec.leB r.1 (decN 5) = true := by
  unfold parseB3 at h
  repeat' split at h
  all_goals first
    | exact Option.noConfusion h
    | (injection h with h2
       subst h2
       dsimp only
       rw [← Bool.and_eq_true]
       assumption)
    | (injection h with h2; subst h2; dsimp only; exact ⟨by decide, by decide⟩)

theorem parseB4_range {tc : List Char} {r : Dec × String} (h : parseB4 tc = some r) :
    Dec.leB decZero r.1 = true ∧ Dec.leB r.1 (decN 5) = true := by
  unfold parseB4 at h
  repeat' split at h
  all_goals first
    | exact Option.noConfusion h
    | (injection h with h2
       subst h2
       dsimp only
       rw [← Bool.and_eq_true]
       assumption)
    | (injection h with h2; subst h2; dsimp only; exact ⟨by decide, by decide⟩)

/-- None of the parser's patterns applies to the cleaned text and no pass
keyword occurs: the situation in which the parser reports no match. -/
def parseNoMatch (s : String) : Bool :=
  !(parseHasPassKw (parseClean s)) &&
  (parseB1 (parseClean s).data).isNone && (parseB2 (parseClean s).data).isNone &&
  (parseB3 (parseClean s).data).isNone && (parseB4 (parseClean s).data).isNone

theorem parse_credit_leB (s : String) :
    Dec.leB decZero (parse_credit_and_gpa s).1 = true ∧
    Dec.leB (parse_credit_and_gpa s).1 (decN 5) = true := by
  unfold parse_credit_and_gpa
  repeat' split
  all_goals first
    | exact parseB1_range (by assumption)
    | exact parseB2_range (by assumption)
    | exact parseB3_range (by assumption)
    | exact parseB4_range (by assumption)
    | (dsimp only; exact ⟨by decide, by decide⟩)

/-- C7: for every input string the credit component returned by
parse_credit_and_gpa lies in the closed interval from zero to five (every
number is accepted as a credit only under that range guard), and when no
pattern matches and no pass keyword occurs the parser returns zero credit
and the empty grade. -/
theorem C7_parse_credit_range (s : String) :
    (0 ≤ (parse_credit_and_gpa s).1.toRat ∧ (parse_credit_and_gpa s).1.toRat ≤ 5) ∧
    (parseNoMatch s = true → parse_credit_and_gpa s = (decZero, "")) := by
  constructor
  · have h := parse_credit_leB s
    constructor
    · have h1 := Dec.leB_iff.mp h.1
      rwa [decZero_toRat] at h1
    · have h2 := Dec.leB_iff.mp h.2
      rw [decN_toRat] at h2
      exact_mod_cast h2
  · intro hnm
    unfold parseNoMatch at hnm
    simp only [Bool.and_eq_true, Bool.not_eq_true', Option.isNone_iff_eq_none] at hnm
    obtain ⟨⟨⟨⟨h0, h1⟩, h2⟩, h3⟩, h4⟩ := hnm
    unfold parse_credit_and_gpa
    simp only [h0, h1, h2, h3, h4, Bool.false_eq_true, if_false]

/-- C7 witness: the concrete pattern-free input consisting of one
exclamation mark satisfies the hypothesis and yields the no-match result. -/
theorem C7_parse_credit_range_witness :
    (0 ≤ (parse_credit_and_gpa "!").1.toRat ∧ (parse_credit_and_gpa "!").1.toRat ≤ 5) ∧
    parse_credit_and_gpa "!" = (decZero, "") :=
  ⟨(C7_parse_credit_range "!").1, (C7_parse_credit_range "!").2 (by decide)⟩

/-- C6: the four scenario cells of the specification evaluate as claimed:
a grade-left credit-right cell, a credit-left grade-right cell, a pass
keyword cell, and the empty cell. -/
theorem C6_parse_scenarios :
    ((parse_credit_and_gpa "A 3").1.toRat = 3 ∧ (parse_credit_and_gpa "A 3").2 = "A") ∧
    ((parse_credit_and_gpa "3 B-").1.toRat = 3 ∧ (parse_credit_and_gpa "3 B-").2 = "B-") ∧
    ((parse_credit_and_gpa "通過").1.toRat = 0 ∧ (parse_credit_and_gpa "通過").2 = "通過") ∧
    ((parse_credit_and_gpa "").1.toRat = 0 ∧ (parse_credit_and_gpa "").2 = "") := by
  have h1 : parse_credit_and_gpa "A 3" = (⟨3, 1, Nat.one_pos⟩, "A") := by decide
  have h2 : parse_credit_and_gpa "3 B-" = (⟨3, 1, Nat.one_pos⟩, "B-") := by decide
  have h3 : parse_credit_and_gpa "通過" = (decZero, "通過") := by decide
  have h4 : parse_credit_and_gpa "" = (decZero, "") := by decide
  refine ⟨⟨?_, ?_⟩, ⟨?_, ?_⟩, ⟨?_, ?_⟩, ?_, ?_⟩ <;>
    simp [h1, h2, h3, h4, Dec.toRat, decZero]

/-! ### Decimal rendering of counters and the header deduplicator -/

/-- The ten decimal digit characters. -/
def digitChar : Nat → Char
  | 0 => '0' | 1 => '1' | 2 => '2' | 3 => '3' | 4 => '4'
  | 5 => '5' | 6 => '6' | 7 => '7' | 8 => '8' | _ => '9'

/-- Little-endian decimal digits of a natural number, fuelled so the
recursion is structural; fuel of at least the number itself suffices. -/
def natDigitsRevF : Nat → Nat → List Nat
  | 0, n => [n]
  | fuel + 1, n => if n < 10 then [n] else n % 10 :: natDigitsRevF fuel (n / 10)

/-- Python's decimal rendering of a natural number inside an f-string. -/
def natRepr (n : Nat) : List Char := ((natDigitsRevF n n).reverse).map digitChar

/-- Value of a little-endian digit list. -/
def digitsVal : List Nat → Nat
  | [] => 0
  | d :: t => d + 10 * digitsVal t

theorem natDigitsRevF_val : ∀ fuel n, n ≤ fuel → digitsVal (natDigitsRevF fuel n) = n := by
  intro fuel
  induction fuel with
  | zero => intro n hn; interval_cases n; decide
  | succ fuel ih =>
    intro n hn
    unfold natDigitsRevF
    split
    · simp [digitsVal]
    · rename_i h10
      have hdiv : n / 10 ≤ fuel := by omega
      simp only [digitsVal, ih (n / 10) (by omega)]
      omega

theorem natDigitsRevF_lt10 : ∀ fuel n, n ≤ fuel → ∀ d ∈ natDigitsRevF fuel n, d < 10 := by
  intro fuel
  induction fuel with
  | zero => intro n hn d hd; interval_cases n; simp_all [natDigitsRevF]
  | succ fuel ih =>
    intro n hn d hd
    unfold natDigitsRevF at hd
    split at hd
    · simp at hd; omega
    · rcases List.mem_cons.mp hd with h | h
      · subst h; exact Nat.mod_lt _ (by norm_num)
      · exact ih (n / 10) (by omega) d h

theorem digitChar_inj : ∀ d1, d1 < 10 → ∀ d2, d2 < 10 → digitChar d1 = digitChar d2 → d1 = d2 := by
  decide

theorem map_digitChar_inj :
    ∀ l1 l2 : List Nat, (∀ d ∈ l1, d < 10) → (∀ d ∈ l2, d < 10) →
      l1.map digitChar = l2.map digitChar → l1 = l2 := by
  intro l1
  induction l1 with
  | nil => intro l2 _ _ h; cases l2 <;> simp_all
  | cons a t ih =>
    intro l2 h1 h2 h
    cases l2 with
    | nil => simp_all
    | cons b u =>
      simp only [List.map_cons, List.cons.injEq] at h
      have ha : a = b :=
        digitChar_inj a (h1 a (by simp)) b (h2 b (by simp)) h.1
      have ht : t = u := ih u (fun d hd => h1 d (by simp [hd])) (fun d hd => h2 d (by simp [hd])) h.2
      rw [ha, ht]

theorem natRepr_inj : ∀ m n : Nat, natRepr m = natRepr n → m = n := by
  intro m n h
  unfold natRepr at h
  have hd : (natDigitsRevF m m).reverse = (natDigitsRevF n n).reverse :=
    map_digitChar_inj _ _
      (fun d hd => natDigitsRevF_lt10 m m le_rfl d (List.mem_reverse.mp hd))
      (fun d hd => natDigitsRevF_lt10 n n le_rfl d (List.mem_reverse.mp hd)) h
  have hd2 : natDigitsRevF m m = natDigitsRevF n n := List.reverse_injective hd
  have := natDigitsRevF_val m m le_rfl
  rw [hd2, natDigitsRevF_val n n le_rfl] at this
  omega

/-- The while loops of make_unique_columns: starting from a counter, return
the first index whose candidate name is not yet used.  Fuel one more than
the number of used names makes the fuel-exhausted branch unreachable. -/
def searchFreshIdx (cand : Nat → String) (used : List String) : Nat → Nat → Nat
  | 0, start => start
  | fuel + 1, start =>
    if used.contains (cand start) then searchFreshIdx cand used fuel (start + 1)
    else start

theorem searchFreshIdx_spec (cand : Nat → String) (used : List String) :
    ∀ fuel start, (∃ k, start ≤ k ∧ k < start + fuel ∧ used.contains (cand k) = false) →
      used.contains (cand (searchFreshIdx cand used fuel start)) = false := by
  intro fuel
  induction fuel with
  | zero => intro start h; obtain ⟨k, h1, h2, _⟩ := h; omega
  | succ fuel ih =>
    intro start h
    unfold searchFreshIdx
    split
    · rename_i hc
      apply ih
      obtain ⟨k, h1, h2, h3⟩ := h
      refine ⟨k, ?_, by omega, h3⟩
      rcases Nat.eq_or_lt_of_le h1 with rfl | h4
      · rw [hc] at h3; cases h3
      · omega
    · rename_i hc
      exact Bool.not_eq_true _ ▸ hc

/-- Pigeonhole: an injective family of candidate names cannot all occur in
a list shorter than the window searched. -/
theorem exists_fresh_cand (cand : Nat → String) (hinj : ∀ i j, cand i = cand j → i = j)
    (used : List String) (start : Nat) :
    ∃ k, start ≤ k ∧ k < start + (used.length + 1) ∧ used.contains (cand k) = false := by
  by_contra hall
  push_neg at hall
  have hmem : ∀ k, start ≤ k → k < start + (used.length + 1) → cand k ∈ used := by
    intro k h1 h2
    have := hall k h1 h2
    have hc : used.contains (cand k) = true := by
      cases hcc : used.contains (cand k)
      · exact absurd hcc this
      · rfl
    exact List.elem_iff.mp hc
  have hsub : (Finset.range (used.length + 1)).image (fun i => cand (start + i)) ⊆ used.toFinset := by
    intro x hx
    obtain ⟨i, hi, rfl⟩ := Finset.mem_image.mp hx
    exact List.mem_toFinset.mpr (hmem (start + i) (by omega) (by simp at hi; omega))
  have hcard : used.length + 1 ≤ used.toFinset.card := by
    have h1 : ((Finset.range (used.length + 1)).image (fun i => cand (start + i))).card
        = used.length + 1 := by
      rw [Finset.card_image_of_injective _ (fun i j hij => by
        have := hinj _ _ hij; omega)]
      simp
    calc used.length + 1 = _ := h1.symm
      _ ≤ used.toFinset.card := Finset.card_le_card hsub
  have := List.toFinset_card_le (l := used)
  omega

/-- A base name joined to a decimal counter by an underscore, the f-string
shape used for both generated placeholders and deduplication suffixes. -/
def underscoreCand (base : String) (k : Nat) : String := ⟨base.data ++ '_' :: natRepr k⟩

theorem underscoreCand_inj (base : String) :
    ∀ i j, underscoreCand base i = underscoreCand base j → i = j := by
  intro i j h
  have hd := congrArg String.data h
  simp only [underscoreCand] at hd
  have h2 := List.append_cancel_left hd
  injection h2 with _ h3
  exact natRepr_inj _ _ h3

theorem fresh_pick (base : String) (acc : List String) (start : Nat) :
    acc.contains (underscoreCand base
      (searchFreshIdx (underscoreCand base) acc (acc.length + 1) start)) = false :=
  searchFreshIdx_spec _ _ _ _ (exists_fresh_cand _ (underscoreCand_inj base) acc start)

/-- The base name chosen for one raw column label: the normalized label,
or a generated Column placeholder when the normalized label is empty or
shorter than two characters (the emptiness test of the source is subsumed
by the length test). -/
def mucBase (acc : List String) (col : String) : String :=
  if (normalize_text col).data.length < 2 then
    underscoreCand "Column" (searchFreshIdx (underscoreCand "Column") acc (acc.length + 1) 1)
  else normalize_text col

/-- One iteration of make_unique_columns: pick the base name, then run the
suffix loop that starts from the counter remembered for that base name and
appends the first fresh suffixed name (or the base name itself when it is
still unused); the counter map is updated as the source's seen dictionary.
The emitted list is the accumulator of the loop. -/
def mucStep (st : List String × (String → Nat)) (col : String) : List String × (String → Nat) :=
  if st.1.contains (mucBase st.1 col) then
    (st.1 ++ [underscoreCand (mucBase st.1 col)
        (searchFreshIdx (underscoreCand (mucBase st.1 col)) st.1 (st.1.length + 1)
          (st.2 (mucBase st.1 col) + 1))],
     fun s => if s = mucBase st.1 col
        then searchFreshIdx (underscoreCand (mucBase st.1 col)) st.1 (st.1.length + 1)
          (st.2 (mucBase st.1 col) + 1)
        else st.2 s)
  else
    (st.1 ++ [mucBase st.1 col],
     fun s => if s = mucBase st.1 col then st.2 (mucBase st.1 col) else st.2 s)

/-- make_unique_columns of src/app.py (src/update/app.py is identical up to
normalization): fold the per-label step over the raw labels, starting from
the empty emitted list and the all-zero seen map. -/
def make_unique_columns (cols : List String) : List String :=
  (cols.foldl mucStep ([], fun _ => 0)).1

theorem mucStep_shape (st : List String × (String → Nat)) (col : String) :
    ∃ x, (mucStep st col).1 = st.1 ++ [x] ∧ st.1.contains x = false := by
  unfold mucStep
  split
  · exact ⟨_, rfl, fresh_pick _ _ _⟩
  · rename_i hc
    exact ⟨_, rfl, Bool.not_eq_true _ ▸ hc⟩

theorem muc_go (cols : List String) :
    ∀ st : List String × (String → Nat), st.1.Nodup →
      (cols.foldl mucStep st).1.length = st.1.length + cols.length ∧
      (cols.foldl mucStep st).1.Nodup := by
  induction cols with
  | nil => intro st h; simpa using h
  | cons c t ih =>
    intro st h
    simp only [List.foldl_cons]
    obtain ⟨x, hx, hfr⟩ := mucStep_shape st c
    have hnotmem : x ∉ st.1 := by simpa using hfr
    have hnodup : (mucStep st c).1.Nodup := by
      rw [hx]
      refine List.nodup_append.mpr ⟨h, List.nodup_singleton x, ?_⟩
      intro a ha hb
      simp only [List.mem_singleton] at hb
      subst hb
      exact hnotmem ha
    have hlen : (mucStep st c).1.length = st.1.length + 1 := by rw [hx]; simp
    obtain ⟨ihl, ihn⟩ := ih (mucStep st c) hnodup
    refine ⟨?_, ihn⟩
    rw [ihl, hlen]
    simp [List.length_cons]
    omega

/-- C8: for every input sequence of raw column labels, make_unique_columns
returns a list of the same length as its input (one output name per input
label, in order) that contains no duplicate strings, generated Column
placeholders and suffixed names included. -/
theorem C8_make_unique_columns (cols : List String) :
    (make_unique_columns cols).length = cols.length ∧ (make_unique_columns cols).Nodup := by
  have h := muc_go cols ([], fun _ => 0) List.nodup_nil
  unfold make_unique_columns
  simpa using h

/-! ### Keyword configuration of the engine (module-level constants) -/

/-- Credit column header keywords. -/
def credit_column_keywords : List String :=
  ["學分", "學分數", "學分(GPA)", "學 分", "Credits", "Credit", "學分數(學分)", "總學分"]

/-- Subject column header keywords. -/
def subject_column_keywords : List String :=
  ["科目名稱", "課程名稱", "Course Name", "Subject Name", "科目", "課程"]

/-- Grade-point column header keywords. -/
def gpa_column_keywords : List String := ["GPA", "成績", "Grade", "gpa(數值)"]

/-- Academic year column header keywords. -/
def year_column_keywords : List String := ["學年", "year", "學 年", "學年度"]

/-- Semester column header keywords. -/
def semester_column_keywords : List String := ["學期", "semester", "學 期"]

/-- Course code column header keywords. -/
def course_code_keywords : List String := ["選課代號", "課號", "課程代碼", "course code"]

/-- Lowering and whitespace removal applied to a keyword by the
regular-expression substitution in src/app.py. -/
def kwFlatRe (s : String) : String := ⟨(s.data.map lowChar).filter (fun c => !(pyIsSpace c))⟩

/-- The flattened lower-cased header keyword set of src/app.py. -/
def all_header_keywords_flat_lower : List String :=
  (credit_column_keywords ++ subject_column_keywords ++ gpa_column_keywords ++
   year_column_keywords ++ semester_column_keywords ++ course_code_keywords).map kwFlatRe

/-- Remove ASCII spaces and newlines, the replace chain of the source. -/
def stripSpaceNl (l : List Char) : List Char := l.filter (fun c => !(c == ' ' || c == '\n'))

/-- Python lower() followed by removal of spaces and newlines. -/
def lowNoSpace (s : String) : String := ⟨stripSpaceNl (s.data.map lowChar)⟩

/-- A column name normalized for header keyword matching: normalize_text,
then lower, then space and newline removal. -/
def normHeaderKey (s : String) : String := lowNoSpace (normalize_text s)

/-- Does a normalized column name contain some keyword of the list,
keywords flattened by the regular-expression substitution (the form used in
calculate_total_credits). -/
def colMatchesKws (col : String) (kws : List String) : Bool :=
  kws.any (fun k => strContains (normHeaderKey col) (kwFlatRe k))

/-- The same test with keywords flattened by the replace chain (the form
used in is_grades_table); identical on the keyword constants, kept separate
for fidelity to the source. -/
def colMatchesKwsRep (col : String) (kws : List String) : Bool :=
  kws.any (fun k => strContains (normHeaderKey col) (lowNoSpace k))

/-! ### Tables and content-pattern predicates -/

/-- A table as calculate_total_credits receives it: a deduplicated header
row of column names and body rows of normalized cell strings.  Cell access
by column name in the source is by position here; the tables the program
builds have unique column names, for which the two coincide. -/
structure Table where
  cols : List String
  rows : List (List String)
deriving DecidableEq

/-- The normalized sampled cells of one column: first twenty rows. -/
def sampleColData (t : Table) (i : Nat) : List String :=
  (t.rows.take 20).map (fun r => normalize_text (r.getD i ""))

/-- A year-like cell: all digits, three or four of them. -/
def yearLikeCell (item : String) : Bool :=
  isAllDigits item.data && (item.data.length == 3 || item.data.length == 4)

/-- The closed list of semester tokens. -/
def semesterTokens : List String :=
  ["上", "下", "春", "夏", "秋", "冬", "1", "2", "3", "春季", "夏季", "秋季", "冬季",
   "spring", "summer", "fall", "winter"]

/-- A semester-like cell: its lower-casing is one of the semester tokens. -/
def semesterLikeCell (item : String) : Bool := semesterTokens.contains (lowStr item)

/-- A course-code-like cell: three to eight alphanumerics, not all digits. -/
def courseCodeLikeCell (item : String) : Bool :=
  isAlnumToken38 item.data && !(isAllDigits item.data)

/-- The pass or exempt cell token list. -/
def passTokens : List String := ["通過", "抵免", "pass", "exempt"]

/-- The pass or exempt token list extended with the unknown-subject
sentinel. -/
def passTokensU : List String := ["通過", "抵免", "pass", "exempt", "未知科目"]

/-- A subject-like cell: has an ideographic character, length at least two,
and fails every other role pattern, the pass tokens and the header keyword
substring test. -/
def subjectLikeCell (item : String) : Bool :=
  hasCJK item.data && decide (2 ≤ item.data.length) &&
  !(isAllDigits item.data) &&
  !(isGradeToken item.data) &&
  !(isNumToken item.data) &&
  !(isAlnumToken38 item.data) &&
  !(passTokensU.contains (lowStr item)) &&
  !(all_header_keywords_flat_lower.any (fun k => strContains (lowNoSpace item) k))

/-- A credit-or-grade-like cell as tested by is_grades_table: the parsed
credit is in the zero-to-five range (always true by the parser's guards),
or the parsed grade is a letter-grade token, or the cell is a pass token. -/
def creditGpaLikeCellIGT (item : String) : Bool :=
  (Dec.leB decZero (parse_credit_and_gpa item).1 &&
     Dec.leB (parse_credit_and_gpa item).1 (decN 5)) ||
  (!((parse_credit_and_gpa item).2.data.isEmpty) &&
     isGradeToken (parse_credit_and_gpa item).2.data) ||
  passTokens.contains (lowStr item)

/-- The variant used by calculate_total_credits, which additionally
requires a non-zero parsed credit in the first disjunct. -/
def creditGpaLikeCellCTC (item : String) : Bool :=
  (Dec.leB decZero (parse_credit_and_gpa item).1 &&
     Dec.leB (parse_credit_and_gpa item).1 (decN 5) &&
     !(Dec.eqB (parse_credit_and_gpa item).1 decZero)) ||
  (!((parse_credit_and_gpa item).2.data.isEmpty) &&
     isGradeToken (parse_credit_and_gpa item).2.data) ||
  passTokens.contains (lowStr item)

/-- Number of sampled cells of a column satisfying a predicate. -/
def countP (l : List String) (p : String → Bool) : Nat := (l.filter p).length

/-! ### is_grades_table of src/app.py -/

/-- Some column of a sampled table meets the year content ratio bound:
count over total at least six tenths (stated by cross multiplication, the
denominators being positive when used). -/
def igtYearCol (t : Table) (i : Nat) : Bool :=
  decide (6 * (sampleColData t i).length ≤ 10 * countP (sampleColData t i) yearLikeCell)

/-- Semester content ratio at least six tenths. -/
def igtSemesterCol (t : Table) (i : Nat) : Bool :=
  decide (6 * (sampleColData t i).length ≤ 10 * countP (sampleColData t i) semesterLikeCell)

/-- Course code content ratio at least three tenths. -/
def igtCourseCodeCol (t : Table) (i : Nat) : Bool :=
  decide (3 * (sampleColData t i).length ≤ 10 * countP (sampleColData t i) courseCodeLikeCell)

/-- Subject content ratio at least four tenths. -/
def igtSubjectCol (t : Table) (i : Nat) : Bool :=
  decide (4 * (sampleColData t i).length ≤ 10 * countP (sampleColData t i) subjectLikeCell)

/-- Credit-or-grade content ratio at least four tenths. -/
def igtCreditGpaCol (t : Table) (i : Nat) : Bool :=
  decide (4 * (sampleColData t i).length ≤ 10 * countP (sampleColData t i) creditGpaLikeCellIGT)

/-- The five found-by-content flags of is_grades_table. -/
structure GFlags where
  y : Bool
  s : Bool
  cc : Bool
  subj : Bool
  cg : Bool
deriving DecidableEq

/-- One column of the content scan: each still-unset flag is set when the
column meets the role's ratio bound; a column with no sampled cells is
skipped. -/
def igtStep (t : Table) (fl : GFlags) (i : Nat) : GFlags :=
  if (sampleColData t i).length = 0 then fl
  else
    { y := fl.y || igtYearCol t i,
      s := fl.s || igtSemesterCol t i,
      cc := fl.cc || igtCourseCodeCol t i,
      subj := fl.subj || igtSubjectCol t i,
      cg := fl.cg || igtCreditGpaCol t i }

/-- The immediate header acceptance of is_grades_table: keyword evidence
for subject, credit or grade, year and semester all present. -/
def hdrAccept (t : Table) : Bool :=
  (t.cols.any (fun c => colMatchesKwsRep c subject_column_keywords)) &&
  ((t.cols.any (fun c => colMatchesKwsRep c credit_column_keywords)) ||
   (t.cols.any (fun c => colMatchesKwsRep c gpa_column_keywords))) &&
  (t.cols.any (fun c => colMatchesKwsRep c year_column_keywords)) &&
  (t.cols.any (fun c => colMatchesKwsRep c semester_column_keywords))

/-- is_grades_table of src/app.py: reject on no rows or under three
columns, accept on full header evidence, otherwise accept exactly on the
four content flags of the column scan. -/
def is_grades_table (t : Table) : Bool :=
  if t.rows.isEmpty || decide (t.cols.length < 3) then false
  else if hdrAccept t then true
  else
    ((List.range t.cols.length).foldl (igtStep t) ⟨false, false, false, false, false⟩).subj &&
    ((List.range t.cols.length).foldl (igtStep t) ⟨false, false, false, false, false⟩).y &&
    ((List.range t.cols.length).foldl (igtStep t) ⟨false, false, false, false, false⟩).s &&
    ((List.range t.cols.length).foldl (igtStep t) ⟨false, false, false, false, false⟩).cg

/-! ### The acceptance test compared with the specification's reading -/

theorem sample_len_ne (t : Table) (h : t.rows ≠ []) (i : Nat) :
    (sampleColData t i).length ≠ 0 := by
  unfold sampleColData
  have hp := List.length_pos.mpr h
  simp only [List.length_map, List.length_take]
  omega

theorem igt_fold (t : Table) (hn : ∀ i, (sampleColData t i).length ≠ 0) :
    ∀ (L : List Nat) (fl : GFlags),
      L.foldl (igtStep t) fl =
        ⟨fl.y || L.any (igtYearCol t), fl.s || L.any (igtSemesterCol t),
         fl.cc || L.any (igtCourseCodeCol t), fl.subj || L.any (igtSubjectCol t),
         fl.cg || L.any (igtCreditGpaCol t)⟩ := by
  intro L
  induction L with
  | nil => intro fl; cases fl; simp
  | cons i L ih =>
    intro fl
    simp only [List.foldl_cons, List.any_cons]
    rw [ih]
    unfold igtStep
    rw [if_neg (hn i)]
    cases fl
    simp [Bool.or_assoc]

/-- The content evidence read with at-least thresholds: for each of the
four required roles some column meets its ratio bound. -/
def contentEvidenceGE (t : Table) : Bool :=
  ((List.range t.cols.length).any (igtYearCol t)) &&
  ((List.range t.cols.length).any (igtSemesterCol t)) &&
  ((List.range t.cols.length).any (igtSubjectCol t)) &&
  ((List.range t.cols.length).any (igtCreditGpaCol t))

/-- Strictly exceeding the year threshold, the literal reading of the
claim's wording. -/
def igtYearColStrict (t : Table) (i : Nat) : Bool :=
  decide (6 * (sampleColData t i).length < 10 * countP (sampleColData t i) yearLikeCell)

/-- Strictly exceeding the semester threshold. -/
def igtSemesterColStrict (t : Table) (i : Nat) : Bool :=
  decide (6 * (sampleColData t i).length < 10 * countP (sampleColData t i) semesterLikeCell)

/-- Strictly exceeding the subject threshold. -/
def igtSubjectColStrict (t : Table) (i : Nat) : Bool :=
  decide (4 * (sampleColData t i).length < 10 * countP (sampleColData t i) subjectLikeCell)

/-- Strictly exceeding the credit-or-grade threshold. -/
def igtCreditGpaColStrict (t : Table) (i : Nat) : Bool :=
  decide (4 * (sampleColData t i).length < 10 * countP (sampleColData t i) creditGpaLikeCellIGT)

/-- Content evidence with the ratios strictly exceeding the thresholds. -/
def contentEvidenceStrict (t : Table) : Bool :=
  ((List.range t.cols.length).any (igtYearColStrict t)) &&
  ((List.range t.cols.length).any (igtSemesterColStrict t)) &&
  ((List.range t.cols.length).any (igtSubjectColStrict t)) &&
  ((List.range t.cols.length).any (igtCreditGpaColStrict t))

/-- The acceptance predicate exactly as the claim words it: at least three
columns and some rows, and either full header evidence or, for each role
independently, some column whose content ratio strictly exceeds the
role-specific threshold. -/
def claimC4Accept (t : Table) : Bool :=
  !t.rows.isEmpty && decide (3 ≤ t.cols.length) && (hdrAccept t || contentEvidenceStrict t)

/-- A table whose subject column matches on exactly two of five sampled
rows: the subject content ratio equals the threshold instead of exceeding
it. -/
def tblC4 : Table :=
  ⟨["Column_1", "Column_2", "Column_3"],
   [["111", "上", "微積分"], ["111", "上", "微積分"],
    ["111", "上", ""], ["111", "上", ""], ["111", "上", ""]]⟩

/-- C4 counterexample: is_grades_table accepts the boundary table although
no column strictly exceeds the subject threshold, so the claim's
equivalence, read with strict thresholds, fails at this table. -/
theorem C4_is_grades_table_counterexample :
    is_grades_table tblC4 = true ∧ claimC4Accept tblC4 = false := by
  constructor
  · decide
  · decide

/-- C4 amended: is_grades_table accepts exactly the tables with rows and at
least three columns that pass the header phase or whose content ratios meet
or exceed (rather than strictly exceed) the role thresholds for year,
semester, subject and credit-or-grade independently. -/
theorem C4_is_grades_table_amended (t : Table) :
    is_grades_table t = true ↔
      (t.rows ≠ [] ∧ 3 ≤ t.cols.length ∧
        (hdrAccept t = true ∨ contentEvidenceGE t = true)) := by
  unfold is_grades_table
  by_cases hemp : t.rows = []
  · simp [hemp]
  · have hne := sample_len_ne t hemp
    by_cases hc : t.cols.length < 3
    · rw [if_pos]
      · simp [hemp, hc]
      · simp [hc]
    · have h3 : 3 ≤ t.cols.length := by omega
      rw [if_neg (by simp [List.isEmpty_iff, hemp]; omega)]
      by_cases hh : hdrAccept t = true
      · simp [hh, hemp, h3]
      · rw [if_neg hh]
        rw [igt_fold t hne]
        unfold contentEvidenceGE
        simp only [hemp, h3, hh, Bool.false_or, Bool.and_eq_true, ne_eq,
          not_false_iff, true_and, false_or]
        tauto

/-! ### Column role scoring and greedy assignment of calculate_total_credits -/

/-- The six assignable column roles. -/
inductive Role
  | year
  | semester
  | courseCode
  | subject
  | credit
  | gpa
deriving DecidableEq

/-- A scored candidate role: the six roles plus the joint credit-or-grade
content role resolved during assignment. -/
inductive CandRole
  | year
  | semester
  | courseCode
  | subject
  | credit
  | gpa
  | creditGpaCombined
deriving DecidableEq

/-- Content-pattern count of a column. -/
def colContentCount (t : Table) (i : Nat) (p : String → Bool) : Nat :=
  countP (sampleColData t i) p

/-- Header keyword test of a column by index. -/
def colHdr (t : Table) (i : Nat) (kws : List String) : Bool :=
  colMatchesKws (t.cols.getD i "") kws

/-- A count over a positive total as a fraction; the zero-total branch is
unreachable because the caller skips columns with no sampled cells, as the
source does. -/
def ratioDec (k n : Nat) : Dec :=
  if h : 0 < n then ⟨k, n, h⟩ else decZero

/-- The score contributed by a header keyword match: the fixed weight two. -/
def hdrScore (b : Bool) : Dec := if b then decN 2 else decZero

/-- The scored candidate list of one column, role entries in the insertion
order of the source's per-column score dictionary: header-matched roles in
code order first, then the content-scored keys not already present, with
the joint credit-or-grade key created by the content phase.  Only entries
with positive score become candidates. -/
def colCandList (t : Table) (i : Nat) : List (Dec × Nat × CandRole) :=
  if (sampleColData t i).length = 0 then []
  else
    ((((if colHdr t i year_column_keywords then
          [(hdrScore true + ratioDec (colContentCount t i yearLikeCell)
              (sampleColData t i).length, CandRole.year)] else []) ++
       (if colHdr t i semester_column_keywords then
          [(hdrScore true + ratioDec (colContentCount t i semesterLikeCell)
              (sampleColData t i).length, CandRole.semester)] else []) ++
       (if colHdr t i course_code_keywords then
          [(hdrScore true + ratioDec (colContentCount t i courseCodeLikeCell)
              (sampleColData t i).length, CandRole.courseCode)] else []) ++
       (if colHdr t i subject_column_keywords then
          [(hdrScore true + ratioDec (colContentCount t i subjectLikeCell)
              (sampleColData t i).length, CandRole.subject)] else []) ++
       (if colHdr t i credit_column_keywords then
          [(hdrScore true, CandRole.credit)] else []) ++
       (if colHdr t i gpa_column_keywords then
          [(hdrScore true, CandRole.gpa)] else []) ++
       (if colHdr t i year_column_keywords then [] else
          [(hdrScore false + ratioDec (colContentCount t i yearLikeCell)
              (sampleColData t i).length, CandRole.year)]) ++
       (if colHdr t i semester_column_keywords then [] else
          [(hdrScore false + ratioDec (colContentCount t i semesterLikeCell)
              (sampleColData t i).length, CandRole.semester)]) ++
       (if colHdr t i course_code_keywords then [] else
          [(hdrScore false + ratioDec (colContentCount t i courseCodeLikeCell)
              (sampleColData t i).length, CandRole.courseCode)]) ++
       [(ratioDec (colContentCount t i creditGpaLikeCellCTC)
            (sampleColData t i).length, CandRole.creditGpaCombined)] ++
       (if colHdr t i subject_column_keywords then [] else
          [(hdrScore false + ratioDec (colContentCount t i subjectLikeCell)
              (sampleColData t i).length, CandRole.subject)])).filter
        (fun sc => Dec.ltB decZero sc.1)).map (fun sc => (sc.1, i, sc.2)))

/-- All scored candidates of a table, columns in order. -/
def allCands (t : Table) : List (Dec × Nat × CandRole) :=
  ((List.range t.cols.length).map (colCandList t)).flatten

/-- Strict candidate order: higher score first, ties by lower column
index; equal score and column preserve insertion order (Python's stable
sort on the key of negated score and column position). -/
def candBefore (a b : Dec × Nat × CandRole) : Bool :=
  Dec.ltB b.1 a.1 || (Dec.eqB a.1 b.1 && decide (a.2.1 < b.2.1))

/-- Stable insertion into an already sorted candidate list. -/
def insertCand (x : Dec × Nat × CandRole) :
    List (Dec × Nat × CandRole) → List (Dec × Nat × CandRole)
  | [] => [x]
  | y :: t => if candBefore x y then x :: y :: t else y :: insertCand x t

/-- Stable sort of the candidates. -/
def sortCands (l : List (Dec × Nat × CandRole)) : List (Dec × Nat × CandRole) :=
  l.foldl (fun acc x => insertCand x acc) []

/-- Point update of a role map. -/
def setRole (m : Role → Option Nat) (r : Role) (i : Nat) : Role → Option Nat :=
  fun r2 => if r2 = r then some i else m r2

/-- One step of the greedy assignment: skip a column already claimed;
resolve the joint credit-or-grade role preferentially to the side with a
header keyword, else credit first then grade; a plain role is taken only
when still unassigned. -/
def applyCand (t : Table) (st : (Role → Option Nat) × List Nat)
    (c : Dec × Nat × CandRole) : (Role → Option Nat) × List Nat :=
  if st.2.contains c.2.1 then st
  else
    match c.2.2 with
    | CandRole.creditGpaCombined =>
      if st.1 Role.credit = none ∧ colHdr t c.2.1 credit_column_keywords = true then
        (setRole st.1 Role.credit c.2.1, c.2.1 :: st.2)
      else if st.1 Role.gpa = none ∧ colHdr t c.2.1 gpa_column_keywords = true then
        (setRole st.1 Role.gpa c.2.1, c.2.1 :: st.2)
      else if st.1 Role.credit = none then (setRole st.1 Role.credit c.2.1, c.2.1 :: st.2)
      else if st.1 Role.gpa = none then (setRole st.1 Role.gpa c.2.1, c.2.1 :: st.2)
      else st
    | CandRole.year =>
      if st.1 Role.year = none then (setRole st.1 Role.year c.2.1, c.2.1 :: st.2) else st
    | CandRole.semester =>
      if st.1 Role.semester = none then (setRole st.1 Role.semester c.2.1, c.2.1 :: st.2) else st
    | CandRole.courseCode =>
      if st.1 Role.courseCode = none then (setRole st.1 Role.courseCode c.2.1, c.2.1 :: st.2)
      else st
    | CandRole.subject =>
      if st.1 Role.subject = none then (setRole st.1 Role.subject c.2.1, c.2.1 :: st.2) else st
    | CandRole.credit =>
      if st.1 Role.credit = none then (setRole st.1 Role.credit c.2.1, c.2.1 :: st.2) else st
    | CandRole.gpa =>
      if st.1 Role.gpa = none then (setRole st.1 Role.gpa c.2.1, c.2.1 :: st.2) else st

/-- The role assignment of calculate_total_credits in src/app.py: sort all
candidates, then greedily claim columns and roles. -/
def assignRoles (t : Table) : Role → Option Nat :=
  ((sortCands (allCands t)).foldl (applyCand t) (fun _ => none, [])).1

/-! ### The assignment invariant of the greedy phase -/

/-- Assignment-state soundness: every assigned column index is recorded in
the claimed set, and no two roles hold the same column. -/
def rmOK (st : (Role → Option Nat) × List Nat) : Prop :=
  (∀ r i, st.1 r = some i → i ∈ st.2) ∧
  (∀ r1 r2 i, st.1 r1 = some i → st.1 r2 = some i → r1 = r2)

theorem assign_ok {st : (Role → Option Nat) × List Nat} {r : Role} {i : Nat}
    (h : rmOK st) (hnone : st.1 r = none) (hni : i ∉ st.2) :
    rmOK (setRole st.1 r i, i :: st.2) := by
  constructor
  · intro r2 j hj
    unfold setRole at hj
    dsimp only at hj
    split at hj
    · simp at hj
      simp [hj]
    · exact List.mem_cons_of_mem _ (h.1 r2 j hj)
  · intro r1 r2 j h1 h2
    unfold setRole at h1 h2
    dsimp only at h1 h2
    split at h1 <;> split at h2
    · rename_i e1 e2; rw [e1, e2]
    · rename_i e1 e2
      simp at h1
      subst h1
      exact absurd (h.1 r2 i h2) hni
    · rename_i e1 e2
      simp at h2
      subst h2
      exact absurd (h.1 r1 i h1) hni
    · exact h.2 r1 r2 j h1 h2

theorem applyCand_ok (t : Table) (st : (Role → Option Nat) × List Nat)
    (c : Dec × Nat × CandRole) (h : rmOK st) : rmOK (applyCand t st c) := by
  unfold applyCand
  split
  · exact h
  · rename_i hcont
    have hni : c.2.1 ∉ st.2 := by simpa using hcont
    split
    all_goals repeat' split
    all_goals first
      | exact h
      | exact assign_ok h (by assumption) hni
      | (rename_i hcond; exact assign_ok h hcond.1 hni)

theorem foldCands_ok (t : Table) :
    ∀ (l : List (Dec × Nat × CandRole)) (st : (Role → Option Nat) × List Nat),
      rmOK st → rmOK (l.foldl (applyCand t) st) := by
  intro l
  induction l with
  | nil => intro st h; exact h
  | cons c l ih => intro st h; exact ih _ (applyCand_ok t st c h)

/-- C3 amended: the single-phase greedy assignment of src/app.py never
gives one column two roles (and, the map being a function from roles to at
most one column, never gives a role two columns).  The claim's further
assertion about a header-keyword fallback phase concerns the revision
src/update/app.py, where it fails; see the counterexample. -/
theorem C3_assignRoles_injective (t : Table) (r1 r2 : Role) (i : Nat)
    (h1 : assignRoles t r1 = some i) (h2 : assignRoles t r2 = some i) : r1 = r2 := by
  have hok : rmOK ((sortCands (allCands t)).foldl (applyCand t) (fun _ => none, [])) :=
    foldCands_ok t _ _
      ⟨fun _ _ hj => Option.noConfusion hj, fun _ _ _ hj _ => Option.noConfusion hj⟩
  exact hok.2 r1 r2 i h1 h2

/-! ### Row-level regular expression searches -/

/-- Leftmost match of the three-or-four-digit year pattern: at the first
position with at least three following digits, take greedily up to four. -/
def searchYear : List Char → Option (List Char)
  | [] => none
  | c :: t =>
    if decide (3 ≤ ((c :: t).takeWhile Char.isDigit).length) then
      some (((c :: t).takeWhile Char.isDigit).take 4)
    else searchYear t

/-- The semester alternation at one position, case-insensitively:
alternatives tried in the listed order, the matched original slice
returned. -/
def semMatchAt (l : List Char) : Option (List Char) :=
  match semesterTokens.find? (fun tok => startsWithChars (l.map lowChar) tok.data) with
  | some tok => some (l.take tok.data.length)
  | none => none

/-- Leftmost match of the semester alternation. -/
def searchSem : List Char → Option (List Char)
  | [] => none
  | c :: t =>
    match semMatchAt (c :: t) with
    | some m => some m
    | none => searchSem t

/-! ### Row interpretation of calculate_total_credits (src/app.py) -/

/-- Administrative phrases that make a row noise. -/
def rowNoiseKws : List String :=
  ["本表僅供查詢", "學號", "勞作", "體育室", "畢業門檻", "網站", "http"]

/-- Administrative patterns that disqualify a subject cell. -/
def subjectAdminPatterns : List String :=
  ["學號", "本表", "註課組", "年級", "班級", "系別", "畢業門檻", "體育常識", "學號",
   "姓名", "班級", "系別"]

/-- The failing grade list of src/app.py. -/
def failing_grades : List String :=
  ["D", "D-", "E", "F", "X", "不通過", "未通過", "不及格", "fail", "failed"]

/-- A fraction in tenths, for the grade-point table. -/
def decTenths (n : Nat) : Dec := ⟨n, 10, by norm_num⟩

/-- The grade-to-point lookup table. -/
def grade_to_gpa : List (String × Dec) :=
  [("A+", decTenths 43), ("A", decTenths 40), ("A-", decTenths 37),
   ("B+", decTenths 33), ("B", decTenths 30), ("B-", decTenths 27),
   ("C+", decTenths 23), ("C", decTenths 20), ("C-", decTenths 17),
   ("D+", decTenths 13), ("D", decTenths 10), ("D-", decTenths 7),
   ("E", decZero), ("F", decZero), ("X", decZero),
   ("不及格", decZero), ("不通過", decZero)]

/-- Python x.replace(dot, empty, 1).isdigit(), the numeric-string guard. -/
def pyNumericStr (l : List Char) : Bool := isAllDigits (removeFirstDot l)

/-- Removal of whitespace by the regular-expression substitution, applied
to cell text (no lowering; the caller lowers first where the source does). -/
def reFlat (s : String) : String := ⟨s.data.filter (fun c => !(pyIsSpace c))⟩

/-- The subject-cell acceptance test of the row interpreter. -/
def subjAccept (nm : String) : Bool :=
  decide (2 ≤ nm.data.length) && hasCJK nm.data &&
  !(isAllDigits nm.data) && !(isGradeToken nm.data) && !(isNumToken nm.data) &&
  !(isAlnumToken38 nm.data) && !(passTokensU.contains (lowStr nm)) &&
  !(all_header_keywords_flat_lower.any (fun k => strContains (reFlat (lowStr nm)) (kwFlatRe k))) &&
  !(subjectAdminPatterns.any (fun p => strContains nm p))

/-- The weaker acceptance test used on the column right of the course code
(no pass-token and no administrative-pattern filter). -/
def subjAcceptNbr (nm : String) : Bool :=
  decide (2 ≤ nm.data.length) && hasCJK nm.data &&
  !(isAllDigits nm.data) && !(isGradeToken nm.data) && !(isNumToken nm.data) &&
  !(isAlnumToken38 nm.data) &&
  !(all_header_keywords_flat_lower.any (fun k => strContains (reFlat (lowStr nm)) (kwFlatRe k)))

/-- The fallback scan of the first three columns for year and semester,
each taken only while still empty, exactly as the source's loop. -/
def fallbackYS (t : Table) (row : List String) : String × String :=
  (List.range (min t.cols.length 3)).foldl
    (fun (ys : String × String) i =>
      ((if ys.1 == "" then
          match searchYear (normalize_text (row.getD i "")).data with
          | some m => (⟨m⟩ : String)
          | none => ys.1
        else ys.1),
       (if ys.2 == "" then
          match searchSem (normalize_text (row.getD i "")).data with
          | some m => (⟨m⟩ : String)
          | none => ys.2
        else ys.2)))
    ("", "")

/-- The rendering of a row by pandas used for the whole-row pass-keyword
search: one line per column name and cell value.  Only its substring
content matters, and the keyword characters cannot straddle the inserted
whitespace. -/
def row_to_string (t : Table) (row : List String) : String :=
  String.join ((t.cols.zip row).map (fun p => p.1 ++ " " ++ p.2 ++ "\n"))

/-- Every intermediate field the row interpreter computes for one data
row. -/
structure RowF where
  rowNorm : List String
  isHeader : Bool
  isNoise : Bool
  acadYear : String
  semester : String
  courseCode : String
  courseName : String
  credit : Dec
  gpa : String
  isFailing : Bool
  isPassed : Bool
deriving DecidableEq

/-- The field extraction of the row interpreter, line by line from
src/app.py: header-repeat detection, noise detection, year and semester
with the first-three-columns fallback, course code, credit and grade from
their columns with the combined-cell retry, subject with the
right-neighbour fallback, and the failing and pass-or-exempt tests. -/
def rowFields (t : Table) (rm : Role → Option Nat) (row : List String) : RowF :=
  let rowNorm := row.map (fun c => normalize_text c)
  let hits := (rowNorm.filter (fun c => all_header_keywords_flat_lower.contains (lowNoSpace c))).length
  let isHeader :=
    (decide (2 * hits ≥ rowNorm.length) && decide (3 ≤ hits)) ||
    (decide (0 < rowNorm.length) && (rowNorm.getD 0 "?" == "") && decide (3 ≤ hits))
  let isNoise :=
    rowNorm.all (fun c => c == "") ||
    rowNorm.any (fun c => rowNoiseKws.any (fun k => strContains c k))
  let yearPrim :=
    match rm Role.year with
    | some i =>
      match searchYear (normalize_text (row.getD i "")).data with
      | some m => (⟨m⟩ : String)
      | none => ""
    | none => ""
  let semPrim :=
    match rm Role.semester with
    | some i =>
      match searchSem (normalize_text (row.getD i "")).data with
      | some m => (⟨m⟩ : String)
      | none => ""
    | none => ""
  let ys := if yearPrim == "" && semPrim == "" then fallbackYS t row else (yearPrim, semPrim)
  let courseCode :=
    match rm Role.courseCode with
    | some i =>
      if isAlnumToken38 (normalize_text (row.getD i "")).data then normalize_text (row.getD i "")
      else ""
    | none => ""
  let credit1 : Dec :=
    match rm Role.credit with
    | some i =>
      if Dec.ltB decZero (parse_credit_and_gpa (row.getD i "")).1 ||
         passTokens.contains (lowStr (normalize_text (row.getD i ""))) then
        (parse_credit_and_gpa (row.getD i "")).1
      else decZero
    | none => decZero
  let gpa1 : String :=
    match rm Role.gpa with
    | some i =>
      if (parse_credit_and_gpa (row.getD i "")).2 ≠ "" then
        upStr (parse_credit_and_gpa (row.getD i "")).2
      else ""
    | none => ""
  let cg2 : Dec × String :=
    if Dec.eqB credit1 decZero && (gpa1 == "") then
      match rm Role.credit with
      | some i =>
        ((if Dec.ltB decZero (parse_credit_and_gpa (normalize_text (row.getD i ""))).1 then
            (parse_credit_and_gpa (normalize_text (row.getD i ""))).1
          else credit1),
         (if (parse_credit_and_gpa (normalize_text (row.getD i ""))).2 ≠ "" && gpa1 == "" then
            upStr (parse_credit_and_gpa (normalize_text (row.getD i ""))).2
          else gpa1))
      | none => (credit1, gpa1)
    else (credit1, gpa1)
  let cg3 : Dec × String :=
    if Dec.eqB cg2.1 decZero && (cg2.2 == "") then
      match rm Role.gpa with
      | some i =>
        ((if Dec.ltB decZero (parse_credit_and_gpa (normalize_text (row.getD i ""))).1 then
            (parse_credit_and_gpa (normalize_text (row.getD i ""))).1
          else cg2.1),
         (if (parse_credit_and_gpa (normalize_text (row.getD i ""))).2 ≠ "" && cg2.2 == "" then
            upStr (parse_credit_and_gpa (normalize_text (row.getD i ""))).2
          else cg2.2))
      | none => cg2
    else cg2
  let subj1 :=
    match rm Role.subject with
    | some i =>
      if subjAccept (normalize_text (row.getD i "")) then normalize_text (row.getD i "")
      else "未知科目"
    | none => "未知科目"
  let courseName :=
    if subj1 == "未知科目" then
      match rm Role.courseCode with
      | some i =>
        if decide (i < t.cols.length - 1) then
          (if subjAcceptNbr (normalize_text (row.getD (i + 1) "")) then
             normalize_text (row.getD (i + 1) "")
           else subj1)
        else subj1
      | none => subj1
    else subj1
  let gpaClean := upStr ⟨cg3.2.data.filter (fun c => !(c == '+' || c == '-'))⟩
  let isFailing :=
    (cg3.2 ≠ "") &&
    ((failing_grades.map upStr).contains gpaClean ||
     (pyNumericStr gpaClean.data && Dec.ltB (decOfNumToken gpaClean.data) (decN 60)))
  let rowText := lowStr (normalize_text (row_to_string t row))
  let isPassed :=
    strContains (lowStr cg3.2) "通過" || strContains (lowStr cg3.2) "抵免" ||
    strContains (lowStr cg3.2) "pass" || strContains (lowStr cg3.2) "exempt" ||
    strContains rowText "通過" || strContains rowText "抵免"
  ⟨rowNorm, isHeader, isNoise, ys.1, ys.2, courseCode, courseName, cg3.1, cg3.2,
   isFailing, isPassed⟩

/-- A course record before the source-table index is attached (the
records the source builds carry year, semester, subject, credit and grade;
the course code is not part of them). -/
structure Record0 where
  acadYear : String
  semester : String
  courseName : String
  credit : Dec
  gpa : String
deriving DecidableEq

/-- The record built from a row's fields. -/
def recOf (F : RowF) : Record0 := ⟨F.acadYear, F.semester, F.courseName, F.credit, F.gpa⟩

/-- The terminal outcome of one data row. -/
inductive RowOutcome
  | headerRow
  | noiseRow
  | rejected
  | failedRec (r : Record0)
  | countedRec (r : Record0)
  | ignored
deriving DecidableEq

/-- The per-row decision chain of the source: header skip, noise skip, the
rejection test, the failing branch, the counted branch, and the silent
branch that produces no record. -/
def rowOutcomeOf (F : RowF) : RowOutcome :=
  if F.isHeader then RowOutcome.headerRow
  else if F.isNoise then RowOutcome.noiseRow
  else if (F.courseName = "未知科目" ∨ F.acadYear = "" ∨ F.semester = "") ∧
          Dec.eqB F.credit decZero = true ∧ F.gpa = "" ∧ F.isPassed = false then
    RowOutcome.rejected
  else if F.isFailing then RowOutcome.failedRec (recOf F)
  else if Dec.ltB decZero F.credit || F.isPassed then RowOutcome.countedRec (recOf F)
  else RowOutcome.ignored

/-- Interpret one row of an accepted table. -/
def interpretRow (t : Table) (rm : Role → Option Nat) (row : List String) : RowOutcome :=
  rowOutcomeOf (rowFields t rm row)

/-! ### Aggregation over rows and tables -/

/-- The identification gate of the aggregator: year, semester and subject
columns found, and a credit or grade column found. -/
def gateOk (rm : Role → Option Nat) : Bool :=
  (rm Role.year).isSome && (rm Role.semester).isSome && (rm Role.subject).isSome &&
  ((rm Role.credit).isSome || (rm Role.gpa).isSome)

/-- The grade-point value of a counted course's grade: the lookup table
first, then the percentage bands for numeric grades, else zero. -/
def gpaValue (g : String) : Dec :=
  match grade_to_gpa.find? (fun p => p.1 == g) with
  | some p => p.2
  | none =>
    if pyNumericStr g.data then
      (if Dec.leB (decN 90) (decOfNumToken g.data) then decN 4
       else if Dec.leB (decN 80) (decOfNumToken g.data) then decN 3
       else if Dec.leB (decN 70) (decOfNumToken g.data) then decN 2
       else if Dec.leB (decN 60) (decOfNumToken g.data) then decN 1
       else decZero)
    else decZero

/-- The per-table accumulator: running credit and grade-point totals and
the two record lists, in row encounter order. -/
structure Agg0 where
  credits : Dec
  gpaPts : Dec
  counted : List Record0
  failed : List Record0
deriving DecidableEq

/-- The empty accumulator. -/
def agg0Zero : Agg0 := ⟨decZero, decZero, [], []⟩

/-- Fold one row outcome into the accumulator: a failed record is appended
without touching the totals; a counted record adds its credit and its
grade points; other outcomes contribute nothing. -/
def agg0Add (a : Agg0) (o : RowOutcome) : Agg0 :=
  match o with
  | RowOutcome.failedRec r => { a with failed := a.failed ++ [r] }
  | RowOutcome.countedRec r =>
    { a with credits := a.credits + r.credit,
             gpaPts := a.gpaPts + gpaValue r.gpa * r.credit,
             counted := a.counted ++ [r] }
  | _ => a

/-- Accumulate a list of row outcomes in order. -/
def accumOutcomes (l : List RowOutcome) : Agg0 := l.foldl agg0Add agg0Zero

/-- Interpret and accumulate every row of a table. -/
def processTableRows (t : Table) (rm : Role → Option Nat) : Agg0 :=
  accumOutcomes (t.rows.map (interpretRow t rm))

/-- The contribution of one table to the aggregate: nothing for an empty
or too-narrow table or when the identification gate fails, else the
accumulated rows. -/
def tableContrib (t : Table) : Agg0 :=
  if t.rows.isEmpty || decide (t.cols.length < 3) then agg0Zero
  else if gateOk (assignRoles t) then processTableRows t (assignRoles t)
  else agg0Zero

/-- A course record with its one-based source table index. -/
structure Record where
  acadYear : String
  semester : String
  courseName : String
  credit : Dec
  gpa : String
  sourceTable : Nat
deriving DecidableEq

/-- Attach the one-based table index to a record. -/
def attachIdx (i : Nat) (r : Record0) : Record :=
  ⟨r.acadYear, r.semester, r.courseName, r.credit, r.gpa, i + 1⟩

/-- The running aggregate across tables. -/
structure AggT where
  credits : Dec
  gpaPts : Dec
  counted : List Record
  failed : List Record

/-- The table loop of calculate_total_credits: add each table's
contribution to the running totals and append its records with their
source index. -/
def calcGo : Nat → AggT → List Table → AggT
  | _, acc, [] => acc
  | i, acc, t :: ts =>
    calcGo (i + 1)
      ⟨acc.credits + (tableContrib t).credits,
       acc.gpaPts + (tableContrib t).gpaPts,
       acc.counted ++ (tableContrib t).counted.map (attachIdx i),
       acc.failed ++ (tableContrib t).failed.map (attachIdx i)⟩ ts

/-- What calculate_total_credits returns: on the empty input list the
early return with only three components (no grade-point total), otherwise
the full four-component result. -/
inductive CalcResult
  | early (credits : Dec) (counted failed : List Record)
  | full (credits : Dec) (gpaPts : Dec) (counted failed : List Record)
deriving DecidableEq

/-- calculate_total_credits of src/app.py, with its two return shapes. -/
def calculate_total_credits (l : List Table) : CalcResult :=
  if l.isEmpty then CalcResult.early decZero [] []
  else
    CalcResult.full (calcGo 0 ⟨decZero, decZero, [], []⟩ l).credits
      (calcGo 0 ⟨decZero, decZero, [], []⟩ l).gpaPts
      (calcGo 0 ⟨decZero, decZero, [], []⟩ l).counted
      (calcGo 0 ⟨decZero, decZero, [], []⟩ l).failed

/-! ### Claim C1: the per-row rejection rule -/

/-- Does an outcome carry a course record. -/
def producesRecord : RowOutcome → Bool
  | RowOutcome.failedRec _ => true
  | RowOutcome.countedRec _ => true
  | _ => false

/-- The rejection rule exactly as the claim words it: all five conditions
conjoined, the subject unknown among them. -/
def claimC1Reject (F : RowF) : Prop :=
  F.courseName = "未知科目" ∧ F.acadYear = "" ∧ F.semester = "" ∧
  Dec.eqB F.credit decZero = true ∧ F.gpa = "" ∧ F.isPassed = false

theorem rowOutcomeOf_spec (F : RowF) (hh : F.isHeader = false) (hn : F.isNoise = false) :
    (rowOutcomeOf F = RowOutcome.rejected ↔
      ((F.courseName = "未知科目" ∨ F.acadYear = "" ∨ F.semester = "") ∧
        Dec.eqB F.credit decZero = true ∧ F.gpa = "" ∧ F.isPassed = false)) ∧
    (rowOutcomeOf F ≠ RowOutcome.rejected →
      (producesRecord (rowOutcomeOf F) = true ↔
        (F.isFailing = true ∨ Dec.ltB decZero F.credit = true ∨ F.isPassed = true))) := by
  unfold rowOutcomeOf
  simp only [hh, hn, Bool.false_eq_true, if_false]
  by_cases hrej : (F.courseName = "未知科目" ∨ F.acadYear = "" ∨ F.semester = "") ∧
      Dec.eqB F.credit decZero = true ∧ F.gpa = "" ∧ F.isPassed = false
  · rw [if_pos hrej]
    exact ⟨⟨fun _ => hrej, fun _ => rfl⟩, fun hne => absurd rfl hne⟩
  · rw [if_neg hrej]
    constructor
    · constructor
      · intro hr
        exfalso
        split at hr
        · cases hr
        · split at hr <;> cases hr
      · exact fun hc => absurd hc hrej
    · intro _
      split
      · rename_i hf
        simp [producesRecord, hf]
      · rename_i hf
        split
        · rename_i hcnt
          simp only [Bool.or_eq_true] at hcnt
          simp [producesRecord]
          tauto
        · rename_i hcnt
          simp only [Bool.or_eq_true] at hcnt
          push_neg at hcnt
          rw [show producesRecord RowOutcome.ignored = false from rfl]
          simp only [Bool.false_eq_true, false_iff]
          intro h
          rcases h with h | h | h
          · exact hf h
          · exact hcnt.1 h
          · exact hcnt.2 h

/-- The single-row table whose subject cell is recognised but whose year,
semester, credit and grade are all absent. -/
def tblC1 : Table := ⟨["學年", "學期", "科目名稱", "學分"], [["", "", "線性代數", ""]]⟩

/-- C1 counterexample: the row is a data row (neither header nor noise),
the interpreter rejects it, yet the claim's five-way conjunction is false
for it because the subject is known; the claim would have the row produce a
record.  The rejection test of the source disjoins the unknown-subject,
empty-year and empty-semester conditions instead of conjoining them. -/
theorem C1_row_rejection_counterexample :
    (rowFields tblC1 (assignRoles tblC1) ["", "", "線性代數", ""]).isHeader = false ∧
    (rowFields tblC1 (assignRoles tblC1) ["", "", "線性代數", ""]).isNoise = false ∧
    gateOk (assignRoles tblC1) = true ∧
    interpretRow tblC1 (assignRoles tblC1) ["", "", "線性代數", ""] = RowOutcome.rejected ∧
    ¬ claimC1Reject (rowFields tblC1 (assignRoles tblC1) ["", "", "線性代數", ""]) := by
  refine ⟨by decide, by decide, by decide, by decide, ?_⟩
  intro h
  exact absurd h.1 (by decide)

/-- C1 amended: a data row is rejected exactly when the subject is unknown
OR the year is unknown OR the semester is unknown, AND the credit is zero,
the grade empty and the row not pass-or-exempt; a non-rejected data row
produces a record exactly when it is failing, has positive credit, or is
pass-or-exempt — otherwise it is dropped with no record. -/
theorem C1_row_rejection_amended (t : Table) (rm : Role → Option Nat) (row : List String)
    (hh : (rowFields t rm row).isHeader = false)
    (hn : (rowFields t rm row).isNoise = false) :
    (interpretRow t rm row = RowOutcome.rejected ↔
      (((rowFields t rm row).courseName = "未知科目" ∨ (rowFields t rm row).acadYear = "" ∨
         (rowFields t rm row).semester = "") ∧
        Dec.eqB (rowFields t rm row).credit decZero = true ∧
        (rowFields t rm row).gpa = "" ∧ (rowFields t rm row).isPassed = false)) ∧
    (interpretRow t rm row ≠ RowOutcome.rejected →
      (producesRecord (interpretRow t rm row) = true ↔
        ((rowFields t rm row).isFailing = true ∨
         Dec.ltB decZero (rowFields t rm row).credit = true ∨
         (rowFields t rm row).isPassed = true))) :=
  rowOutcomeOf_spec (rowFields t rm row) hh hn

/-- C1 witness: the amended characterisation applied to the counterexample
row, whose hypotheses hold and which the interpreter rejects. -/
theorem C1_row_rejection_amended_witness :
    interpretRow tblC1 (assignRoles tblC1) ["", "", "線性代數", ""] = RowOutcome.rejected :=
  (C1_row_rejection_amended tblC1 (assignRoles tblC1) ["", "", "線性代數", ""]
    (by decide) (by decide)).1.mpr (by decide)

/-! ### Claim C5: the pass-or-exempt classification -/

/-- The one-row table whose credit cell carries the keyword pass without
the keyword reaching the extracted grade. -/
def tblC5 : Table :=
  ⟨["學年", "學期", "科目名稱", "學分", "GPA"], [["111", "上", "微積分", "3 pass", "A"]]⟩

/-- The classification exactly as the claim words it: some keyword of the
pass-or-exempt list appears in the extracted grade, in the credit column's
text, or anywhere in the row's raw text. -/
def claimC5Pass (t : Table) (rm : Role → Option Nat) (row : List String) : Bool :=
  passTokens.any (fun kw =>
    strContains (lowStr (rowFields t rm row).gpa) kw ||
    (match rm Role.credit with
     | some i => strContains (lowStr (row.getD i "")) kw
     | none => false) ||
    strContains (lowStr (row_to_string t row)) kw)

/-- C5 counterexample: on the credit cell containing the keyword pass the
claim's classification is positive, but the interpreter's is not — the
source checks the four keywords only in the extracted grade and checks the
row's raw text only for the two local-language keywords, never the credit
column's own text for the English ones. -/
theorem C5_passed_counterexample :
    claimC5Pass tblC5 (assignRoles tblC5) ["111", "上", "微積分", "3 pass", "A"] = true ∧
    (rowFields tblC5 (assignRoles tblC5) ["111", "上", "微積分", "3 pass", "A"]).isPassed
      = false := by
  constructor
  · decide
  · decide

/-- C5 amended: a row is classified pass-or-exempt exactly when one of the
four keywords occurs in the extracted grade field, or one of the two
local-language keywords occurs in the row's raw text (which subsumes every
cell, the credit column's included). -/
theorem C5_passed_amended (t : Table) (rm : Role → Option Nat) (row : List String) :
    (rowFields t rm row).isPassed = true ↔
      (strContains (lowStr (rowFields t rm row).gpa) "通過" = true ∨
       strContains (lowStr (rowFields t rm row).gpa) "抵免" = true ∨
       strContains (lowStr (rowFields t rm row).gpa) "pass" = true ∨
       strContains (lowStr (rowFields t rm row).gpa) "exempt" = true ∨
       strContains (lowStr (normalize_text (row_to_string t row))) "通過" = true ∨
       strContains (lowStr (normalize_text (row_to_string t row))) "抵免" = true) := by
  show (rowFields t rm row).isPassed = true ↔ _
  unfold rowFields
  dsimp only
  simp only [Bool.or_eq_true]
  tauto

/-! ### Claims C9 and C10: aggregation totals -/

/-- The credit total of either return shape. -/
def calcCredits : CalcResult → Dec
  | CalcResult.early c _ _ => c
  | CalcResult.full c _ _ _ => c

/-- The grade-point total of the full return shape; the early shape has
none, so it reads as zero. -/
def calcGpaPts : CalcResult → Dec
  | CalcResult.early _ _ _ => decZero
  | CalcResult.full _ g _ _ => g

/-- The counted course records of either return shape. -/
def calcCounted : CalcResult → List Record
  | CalcResult.early _ cnt _ => cnt
  | CalcResult.full _ _ cnt _ => cnt

theorem calcGo_credits (l : List Table) :
    ∀ (i : Nat) (acc : AggT),
      (calcGo i acc l).credits =
        acc.credits + (l.map (fun t => (tableContrib t).credits)).sum := by
  induction l with
  | nil => intro i acc; simp [calcGo]
  | cons t ts ih =>
    intro i acc
    simp only [calcGo, List.map_cons, List.sum_cons, ih]
    rw [add_assoc]

theorem calcGo_gpaPts (l : List Table) :
    ∀ (i : Nat) (acc : AggT),
      (calcGo i acc l).gpaPts =
        acc.gpaPts + (l.map (fun t => (tableContrib t).gpaPts)).sum := by
  induction l with
  | nil => intro i acc; simp [calcGo]
  | cons t ts ih =>
    intro i acc
    simp only [calcGo, List.map_cons, List.sum_cons, ih]
    rw [add_assoc]

/-! ### IEEE binary64 accumulation

The loop of calculate_total_credits accumulates the totals with Python
float addition (total_credits += extracted_credit, src/app.py:512), which
rounds the exact sum to 53 significant bits after every step.  The model
below represents a non-negative double exactly as a dyadic fraction
m / 2^k and implements one addition step as exact addition followed by
rounding to nearest with ties to even, the binary64 rule; it is adequate
for the magnitudes handled here, far from overflow and subnormals.  Because
the rounding happens after every step, this addition is not associative,
and the accumulated total depends on the order of the tables. -/

/-- Bit length of a natural number (0 for 0), by structural recursion on a
fuel bound; the fuel n always suffices since halving reaches 0 within n
steps. -/
def bitLenF : Nat → Nat → Nat
  | 0, _ => 0
  | fuel + 1, n => if n = 0 then 0 else bitLenF fuel (n / 2) + 1

/-- Bit length of a natural number. -/
def bitLen (n : Nat) : Nat := bitLenF n n

/-- A non-negative binary64 value as the dyadic fraction m / 2^k. -/
structure F64 where
  m : Nat
  k : Nat
deriving DecidableEq

/-- Round the dyadic fraction n / 2^k to 53 significant bits, to nearest
with ties to even: exact when n already fits in 53 bits, otherwise the
low bits are compared against half an ulp and a tie goes to the even
neighbour. -/
def round53 (n k : Nat) : F64 :=
  if bitLen n ≤ 53 then ⟨n, k⟩
  else
    ⟨(if n % 2 ^ (bitLen n - 53) > 2 ^ (bitLen n - 53 - 1) ∨
         (n % 2 ^ (bitLen n - 53) = 2 ^ (bitLen n - 53 - 1) ∧ n / 2 ^ (bitLen n - 53) % 2 = 1)
      then n / 2 ^ (bitLen n - 53) + 1 else n / 2 ^ (bitLen n - 53)),
     k - (bitLen n - 53)⟩

/-- One step of Python float addition on non-negative doubles: the exact
sum over the common power-of-two denominator, rounded to 53 bits. -/
def f64Add (a b : F64) : F64 :=
  round53 (a.m * 2 ^ (max a.k b.k - a.k) + b.m * 2 ^ (max a.k b.k - b.k)) (max a.k b.k)

/-- The double 0.0, the initial value of the running totals. -/
def f64Zero : F64 := ⟨0, 0⟩

/-- Left fold of float additions starting from 0.0: the value of
total_credits after the listed credits have been accumulated in encounter
order. -/
def f64Sum (l : List F64) : F64 := l.foldl f64Add f64Zero

/-- Equality of the represented values (the fractions m / 2^k compared by
cross multiplication). -/
def F64.eqB (a b : F64) : Bool := a.m * 2 ^ b.k == b.m * 2 ^ a.k

/-- Smallest scaling s with floor of p * 2^s / q at least 2^52, found by a
fuel-bounded search; for 0 < p/q < 1 the start fuel always suffices. -/
def scaleUpF (p q : Nat) : Nat → Nat → Nat
  | 0, s => s
  | fuel + 1, s => if p * 2 ^ s / q < 2 ^ 52 then scaleUpF p q fuel (s + 1) else s

/-- Python float() of the positive fraction p / q < 1: scale into the
binade of 53-bit mantissas, then round the quotient to nearest with ties
to even — the correctly rounded double of p / q. -/
def ratToF64 (p q : Nat) : F64 :=
  ⟨(if 2 * (p * 2 ^ scaleUpF p q (60 + bitLen q) 0 % q) > q ∨
       (2 * (p * 2 ^ scaleUpF p q (60 + bitLen q) 0 % q) = q ∧
        p * 2 ^ scaleUpF p q (60 + bitLen q) 0 / q % 2 = 1)
    then p * 2 ^ scaleUpF p q (60 + bitLen q) 0 / q + 1
    else p * 2 ^ scaleUpF p q (60 + bitLen q) 0 / q),
   scaleUpF p q (60 + bitLen q) 0⟩

/-- One-row grades tables whose credit cells carry the decimal fractions
0.1, 0.2 and 0.3; the header row matches the year, semester, subject and
credit keywords, so each table passes the identification gate, and each
bare number parses as the row's credit (it lies in the 0 to 5 range). -/
def tblC9a : Table := ⟨["學年", "學期", "科目名稱", "學分"], [["111", "上", "微積分", "0.1"]]⟩

/-- Second table of the C9 scenario, credit cell 0.2. -/
def tblC9b : Table := ⟨["學年", "學期", "科目名稱", "學分"], [["111", "下", "普通物理", "0.2"]]⟩

/-- Third table of the C9 scenario, credit cell 0.3. -/
def tblC9c : Table := ⟨["學年", "學期", "科目名稱", "學分"], [["112", "上", "普通化學", "0.3"]]⟩

/-- The doubles of the three credit cells: each is the stated dyadic
constant, each stated mantissa has exactly 53 bits, and each constant is
within half an ulp of the decimal it rounds (|q * m − p * 2^k| * 2 ≤ q),
so it is the nearest double — float("0.1"), float("0.2"), float("0.3"). -/
theorem ratToF64_tenths :
    ratToF64 1 10 = ⟨7205759403792794, 56⟩ ∧
    ratToF64 2 10 = ⟨7205759403792794, 55⟩ ∧
    ratToF64 3 10 = ⟨5404319552844595, 54⟩ ∧
    ((10 : Int) * 7205759403792794 - 2 ^ 56).natAbs * 2 ≤ 10 ∧
    ((10 : Int) * 7205759403792794 - 2 * 2 ^ 55).natAbs * 2 ≤ 10 ∧
    ((10 : Int) * 5404319552844595 - 3 * 2 ^ 54).natAbs * 2 ≤ 10 ∧
    2 ^ 52 ≤ 7205759403792794 ∧ 7205759403792794 < 2 ^ 53 ∧
    2 ^ 52 ≤ 5404319552844595 ∧ 5404319552844595 < 2 ^ 53 := by
  decide

/-- C9 amended: each table's contribution is independent of its position,
so permuting the input table list changes neither the exact value of the
credit total nor the exact value of the grade-point total of
calculate_total_credits; the doubles the program accumulates for those
totals, however, round after every addition and need not be
permutation-invariant (the counterexample exhibits two orders of the same
tables whose accumulated credit doubles differ). -/
theorem C9_totals_permutation_invariant (l1 l2 : List Table) (h : l1.Perm l2) :
    calcCredits (calculate_total_credits l1) = calcCredits (calculate_total_credits l2) ∧
    calcGpaPts (calculate_total_credits l1) = calcGpaPts (calculate_total_credits l2) := by
  by_cases h1 : l1 = []
  · subst h1
    have h2 : l2 = [] := h.symm.eq_nil
    subst h2
    exact ⟨rfl, rfl⟩
  · have h2 : l2 ≠ [] := by
      intro he
      subst he
      exact h1 h.eq_nil
    unfold calculate_total_credits
    rw [if_neg (by simpa using h1), if_neg (by simpa using h2)]
    constructor
    · dsimp only [calcCredits]
      rw [calcGo_credits, calcGo_credits,
        List.Perm.sum_eq (h.map (fun t => (tableContrib t).credits))]
    · dsimp only [calcGpaPts]
      rw [calcGo_gpaPts, calcGo_gpaPts,
        List.Perm.sum_eq (h.map (fun t => (tableContrib t).gpaPts))]

/-- C9 witness: swapping the two concrete tables leaves both totals
unchanged. -/
theorem C9_totals_permutation_invariant_witness :
    calcCredits (calculate_total_credits [tblC1, tblC5]) =
      calcCredits (calculate_total_credits [tblC5, tblC1]) ∧
    calcGpaPts (calculate_total_credits [tblC1, tblC5]) =
      calcGpaPts (calculate_total_credits [tblC5, tblC1]) :=
  C9_totals_permutation_invariant [tblC1, tblC5] [tblC5, tblC1]
    (List.Perm.swap tblC5 tblC1 [])

/-- C9 counterexample: on the three one-row tables with credit cells 0.1,
0.2 and 0.3, calculate_total_credits counts one record per table with
exactly those credits, in table order, for both orders of the list; the
program accumulates the parsed doubles with float addition
(total_credits += extracted_credit, src/app.py:512), and the two encounter
orders round differently — 0.1 + 0.2 + 0.3 gives the double
5404319552844596 / 2^53 (printed 0.6000000000000001) while
0.3 + 0.2 + 0.1 gives 5404319552844595 / 2^53 (printed 0.6) — so the
totalCredits the program returns is not invariant under permutation of the
input tables. -/
theorem C9_totals_float_counterexample :
    (calcCounted (calculate_total_credits [tblC9a, tblC9b, tblC9c])).map (fun r => r.credit)
      = [decTenths 1, decTenths 2, decTenths 3] ∧
    (calcCounted (calculate_total_credits [tblC9c, tblC9b, tblC9a])).map (fun r => r.credit)
      = [decTenths 3, decTenths 2, decTenths 1] ∧
    f64Sum [ratToF64 1 10, ratToF64 2 10, ratToF64 3 10] = ⟨5404319552844596, 53⟩ ∧
    f64Sum [ratToF64 3 10, ratToF64 2 10, ratToF64 1 10] = ⟨5404319552844595, 53⟩ ∧
    F64.eqB (f64Sum [ratToF64 1 10, ratToF64 2 10, ratToF64 3 10])
      (f64Sum [ratToF64 3 10, ratToF64 2 10, ratToF64 1 10]) = false := by
  exact ⟨by decide, by decide, by decide, by decide, by decide⟩

/-- C10: on the empty table list calculate_total_credits takes the early
return of src/app.py, a three-component result with zero credits and empty
course collections but no grade-point component at all, unlike the
four-component result of every other input — the aggregate is not the
complete four-component AggregateResult the claim requires. -/
theorem C10_empty_input_shape :
    calculate_total_credits [] = CalcResult.early decZero [] [] ∧
    ∀ c g cnt fl, calculate_total_credits [] ≠ CalcResult.full c g cnt fl := by
  constructor
  · rfl
  · intro c g cnt fl h
    exact CalcResult.noConfusion h

/-! ### Claim C2: exception handling around the row loop

The try block of calculate_total_credits wraps the whole row loop of one
table, not a single row: a row computation that raises ends the table's
loop while keeping what earlier rows already accumulated, and the table
loop then moves on to the next table.  The possibly-raising row
computations are modelled by a list of row results, an error standing for
a raised exception. -/

/-- The try-wrapped row loop of one table: accumulate row outcomes in
order; at the first raised exception return the accumulator built so far
and drop the rest of the table's rows. -/
def tryFoldGo {ε : Type} (acc : Agg0) : List (Except ε RowOutcome) → Agg0
  | [] => acc
  | Except.error _ :: _ => acc
  | Except.ok o :: t => tryFoldGo (agg0Add acc o) t

/-- The contribution of a table whose row computations may raise. -/
def tryFoldOutcomes {ε : Type} (l : List (Except ε RowOutcome)) : Agg0 :=
  tryFoldGo agg0Zero l

/-- The row outcomes before the first raised exception. -/
def okRun {ε : Type} : List (Except ε RowOutcome) → List RowOutcome
  | [] => []
  | Except.error _ :: _ => []
  | Except.ok o :: t => o :: okRun t

/-- The per-row-catch semantics the claim describes: an exception skips
only its own row and the loop continues. -/
def skipFoldGo {ε : Type} (acc : Agg0) : List (Except ε RowOutcome) → Agg0
  | [] => acc
  | Except.error _ :: t => skipFoldGo acc t
  | Except.ok o :: t => skipFoldGo (agg0Add acc o) t

/-- The claimed contribution under per-row catching. -/
def skipFoldOutcomes {ε : Type} (l : List (Except ε RowOutcome)) : Agg0 :=
  skipFoldGo agg0Zero l

/-- A concrete counted record for the counterexample. -/
def recC2 : Record0 := ⟨"111", "上", "微積分", decN 3, "A"⟩

/-- The two-row table computation whose first row raises and whose second
row would contribute three credits. -/
def excRowsC2 : List (Except Unit RowOutcome) :=
  [Except.error (), Except.ok (RowOutcome.countedRec recC2)]

/-- C2 counterexample: with the exception on the first row, the source's
try-around-the-loop semantics loses the second row's three credits, while
the claimed per-row-catch semantics keeps them — the second row of the
same table does not continue to be processed. -/
theorem C2_row_exception_counterexample :
    (tryFoldOutcomes excRowsC2).credits = decZero ∧
    Dec.eqB (skipFoldOutcomes excRowsC2).credits (decN 3) = true ∧
    tryFoldOutcomes excRowsC2 ≠ skipFoldOutcomes excRowsC2 := by
  refine ⟨by decide, by decide, ?_⟩
  intro h
  have h2 := congrArg Agg0.credits h
  exact absurd h2 (by decide)

theorem tryFoldGo_okRun {ε : Type} :
    ∀ (l : List (Except ε RowOutcome)) (acc : Agg0),
      tryFoldGo acc l = (okRun l).foldl agg0Add acc := by
  intro l
  induction l with
  | nil => intro acc; rfl
  | cons e t ih =>
    intro acc
    cases e with
    | error _ => rfl
    | ok o => simp only [tryFoldGo, okRun, List.foldl_cons, ih]

/-- C2 amended: an exception while computing a row is caught around the
whole row loop of its table: the rows before the failing one keep their
accumulated contribution, every later row of that table is dropped, and
(the catch sitting inside the per-table loop) other tables are unaffected. -/
theorem C2_row_exception_amended {ε : Type} (l : List (Except ε RowOutcome)) :
    tryFoldOutcomes l = accumOutcomes (okRun l) ∧
    (∀ (e : ε) (rest : List (Except ε RowOutcome)),
      okRun (Except.error e :: rest) = ([] : List RowOutcome)) :=
  ⟨tryFoldGo_okRun l agg0Zero, fun _ _ => rfl⟩

/-! ### Claim C3: the role assignment of the update revision

src/update/app.py assigns roles in two phases: content-scored candidates
with per-role thresholds and ad hoc credit and grade selection, then a
header-keyword fallback for roles still unassigned.  Its fallbacks take the
best credit-or-grade candidate column without checking whether another role
already owns it. -/

/-- The flattened header keyword list of src/update/app.py: lower-cased
only, whitespace kept, and without the course code keywords. -/
def upd_header_keywords_flat_lower : List String :=
  (credit_column_keywords ++ subject_column_keywords ++ gpa_column_keywords ++
   year_column_keywords ++ semester_column_keywords).map lowStr

/-- Anchored match of an A-to-F letter with optional modifier, the
case-sensitive class of the update revision's parser. -/
def afGradeAt (l : List Char) : Option (List Char × List Char) :=
  match l with
  | [] => none
  | c :: t =>
    if isAFLetter c then
      match t with
      | m :: u => if m == '+' || m == '-' then some ([c, m], u) else some ([c], t)
      | [] => some ([c], [])
    else none

/-- Leftmost match of the A-to-F letter-grade pattern. -/
def searchAFGrade : List Char → Option (List Char)
  | [] => none
  | c :: t =>
    match afGradeAt (c :: t) with
    | some (m, _) => some m
    | none => searchAFGrade t

/-- First pattern of the update revision parser: A-to-F grade left,
credit right, range-guarded. -/
def updB1 (tc : List Char) : Option (Dec × String) :=
  match afGradeAt tc with
  | some (g, rest) =>
    match numTokenAt (rest.dropWhile pyIsSpace) with
    | some (n, _) =>
      if Dec.leB decZero (decOfNumToken n) && Dec.leB (decOfNumToken n) (decN 5) then
        some (decOfNumToken n, upStr ⟨g⟩)
      else none
    | none => none
  | none => none

/-- Second pattern: credit left, A-to-F grade right, range-guarded. -/
def updB2 (tc : List Char) : Option (Dec × String) :=
  match numTokenAt tc with
  | some (n, rest) =>
    match afGradeAt (rest.dropWhile pyIsSpace) with
    | some (g, _) =>
      if Dec.leB decZero (decOfNumToken n) && Dec.leB (decOfNumToken n) (decN 5) then
        some (decOfNumToken n, upStr ⟨g⟩)
      else none
    | none => none
  | none => none

/-- Third pattern: a bare number in range as the credit, no grade. -/
def updB3 (tc : List Char) : Option (Dec × String) :=
  match searchNumToken tc with
  | some m =>
    if Dec.leB decZero (decOfNumToken m) && Dec.leB (decOfNumToken m) (decN 5) then
      some (decOfNumToken m, "")
    else none
  | none => none

/-- Fourth pattern: a bare A-to-F letter grade alone. -/
def updB4 (tc : List Char) : Option (Dec × String) :=
  match searchAFGrade tc with
  | some g => some (decZero, upStr ⟨g⟩)
  | none => none

/-- parse_credit_and_gpa of src/update/app.py: the pass test is an exact
lower-cased comparison, the text is not lower-cased for matching, the
letter class is A-to-F, and the bare-number pattern returns no grade. -/
def parse_credit_and_gpa_upd (text : String) : Dec × String :=
  if passTokens.contains (lowStr (normalize_text text)) then
    (decZero, normalize_text text)
  else
    match updB1 (normalize_text text).data with
    | some r => r
    | none =>
      match updB2 (normalize_text text).data with
      | some r => r
      | none =>
        match updB3 (normalize_text text).data with
        | some r => r
        | none =>
          match updB4 (normalize_text text).data with
          | some r => r
          | none => (decZero, "")

/-- The subject content test of the update revision: ideographic, length
at least two, not a digit run, not an A-to-F grade, not a pass token, and
containing no flattened header keyword. -/
def updSubjectLikeCell (item : String) : Bool :=
  hasCJK item.data && decide (2 ≤ item.data.length) &&
  !(isAllDigits item.data) && !(isGradeToken item.data) &&
  !(passTokensU.contains (lowStr item)) &&
  !(upd_header_keywords_flat_lower.any (fun k => strContains (lowStr item) k))

/-- The credit-or-grade content test of the update revision, on its own
parser; the range disjunct is vacuously true by the parser guards. -/
def updCreditGpaLikeCell (item : String) : Bool :=
  (Dec.leB decZero (parse_credit_and_gpa_upd item).1 &&
     Dec.leB (parse_credit_and_gpa_upd item).1 (decN 5)) ||
  (!((parse_credit_and_gpa_upd item).2.data.isEmpty) &&
     isGradeToken (parse_credit_and_gpa_upd item).2.data) ||
  passTokens.contains (lowStr item)

/-- Candidate columns of one role in the update revision: every column
whose content score meets the role threshold, with its score. -/
def updRoleCands (t : Table) (p : String → Bool) (thr : Dec) : List (Nat × Dec) :=
  (List.range t.cols.length).foldr
    (fun i acc =>
      if (sampleColData t i).length = 0 then acc
      else if Dec.leB thr (ratioDec (colContentCount t i p) (sampleColData t i).length) then
        (i, ratioDec (colContentCount t i p) (sampleColData t i).length) :: acc
      else acc) []

/-- Candidate order of the update revision: higher score first, then lower
column index. -/
def updCandBefore (a b : Nat × Dec) : Bool :=
  Dec.ltB b.2 a.2 || (Dec.eqB a.2 b.2 && decide (a.1 < b.1))

/-- Stable insertion for the update revision candidate sort. -/
def updInsertCand (x : Nat × Dec) : List (Nat × Dec) → List (Nat × Dec)
  | [] => [x]
  | y :: t => if updCandBefore x y then x :: y :: t else y :: updInsertCand x t

/-- Stable sort of the update revision candidates. -/
def updSortCands (l : List (Nat × Dec)) : List (Nat × Dec) :=
  l.foldl (fun acc x => updInsertCand x acc) []

/-- A column name as the update revision normalizes it for raw keyword
search: whitespace removed, then lower-cased. -/
def updNormCol (s : String) : String :=
  ⟨(s.data.filter (fun c => !(pyIsSpace c))).map lowChar⟩

/-- A numeric cell acceptable as a dedicated credit column content. -/
def updNumericCreditCell (item : String) : Bool :=
  isNumToken item.data && Dec.leB decZero (decOfNumToken item.data) &&
  Dec.leB (decOfNumToken item.data) (decN 5)

/-- The dedicated credit column scan of the update revision: the first
sorted candidate whose name contains a raw credit keyword or at least half
of whose sampled cells are in-range numbers (the sample size is the stale
loop variable, equal for every column). -/
def updFindCredit (t : Table) (cands : List (Nat × Dec)) : Option Nat :=
  (cands.find? (fun c =>
    credit_column_keywords.any (fun k => strContains (updNormCol (t.cols.getD c.1 "")) k) ||
    decide ((t.rows.take 20).length ≤
      2 * countP (sampleColData t c.1) updNumericCreditCell))).map (fun c => c.1)

/-- The dedicated grade column scan: the first candidate distinct from the
credit column whose name contains a raw grade keyword or at least half of
whose sampled cells are letter grades. -/
def updFindGpa (t : Table) (cands : List (Nat × Dec)) (creditOpt : Option Nat) : Option Nat :=
  (cands.find? (fun c =>
    decide (creditOpt ≠ some c.1) &&
    (gpa_column_keywords.any (fun k => strContains (updNormCol (t.cols.getD c.1 "")) k) ||
     decide ((t.rows.take 20).length ≤
       2 * countP (sampleColData t c.1) (fun item => isGradeToken item.data))))).map
    (fun c => c.1)

/-- The normalized-name-to-column dictionary of the update revision header
fallback: keys in first-occurrence order, a duplicate key keeping its
position but taking the later column. -/
def updKeyInsert (m : List (String × Nat)) (key : String) (i : Nat) : List (String × Nat) :=
  if m.any (fun p => p.1 == key) then
    m.map (fun p => if p.1 == key then (p.1, i) else p)
  else m ++ [(key, i)]

/-- Build the dictionary over all columns. -/
def updColKeyMap (t : Table) : List (String × Nat) :=
  (List.range t.cols.length).foldl
    (fun m i => updKeyInsert m (updNormCol (t.cols.getD i "")) i) []

/-- The header keyword fallback of the update revision: for each keyword
in order, the first dictionary entry whose key contains the raw keyword. -/
def updHdrFallback (m : List (String × Nat)) : List String → Option Nat
  | [] => none
  | k :: rest =>
    match m.find? (fun p => strContains p.1 k) with
    | some p => some p.2
    | none => updHdrFallback m rest

/-- The complete role assignment of calculate_total_credits in
src/update/app.py: the content phase with its credit and grade selection
and fallbacks, the year-semester same-column tweak, then the header
keyword fallback phase for roles still unassigned. -/
def updAssignRoles (t : Table) : Role → Option Nat :=
  let yearCands := updSortCands (updRoleCands t yearLikeCell (decTenths 6))
  let semCands := updSortCands (updRoleCands t semesterLikeCell (decTenths 6))
  let cgCands := updSortCands (updRoleCands t updCreditGpaLikeCell (decTenths 4))
  let subjCands := updSortCands (updRoleCands t updSubjectLikeCell (decTenths 4))
  let year1 := yearCands.head?.map (fun c => c.1)
  let sem1 := semCands.head?.map (fun c => c.1)
  let sem2 :=
    if year1 = sem1 ∧ year1 ≠ none ∧
        (match yearCands.head?, semCands.head? with
         | some a, some b => Dec.ltB b.2 a.2
         | _, _ => false) = true then none
    else sem1
  let subj1 := subjCands.head?.map (fun c => c.1)
  let credit1 := updFindCredit t cgCands
  let gpa1 := updFindGpa t cgCands credit1
  let credit2 := if credit1 = none then cgCands.head?.map (fun c => c.1) else credit1
  let gpa2 :=
    if gpa1 = none then
      match cgCands.drop 1 with
      | c2 :: _ => if credit2 ≠ some c2.1 then some c2.1 else gpa1
      | [] => gpa1
    else gpa1
  let m := updColKeyMap t
  fun r =>
    match r with
    | Role.year => if year1 = none then updHdrFallback m year_column_keywords else year1
    | Role.semester => if sem2 = none then updHdrFallback m semester_column_keywords else sem2
    | Role.subject => if subj1 = none then updHdrFallback m subject_column_keywords else subj1
    | Role.credit => if credit2 = none then updHdrFallback m credit_column_keywords else credit2
    | Role.gpa => if gpa2 = none then updHdrFallback m gpa_column_keywords else gpa2
    | Role.courseCode => none

/-- C3 counterexample: on an ordinary content-only table the update
revision fallback hands the credit role to the year column and the grade
role to the semester column, so two columns each carry two roles while the
identification gate still passes and the table is processed. -/
theorem C3_update_assignment_counterexample :
    updAssignRoles tblC4 Role.year = some 0 ∧ updAssignRoles tblC4 Role.credit = some 0 ∧
    updAssignRoles tblC4 Role.semester = some 1 ∧ updAssignRoles tblC4 Role.gpa = some 1 ∧
    gateOk (updAssignRoles tblC4) = true := by
  refine ⟨by decide, by decide, by decide, by decide, by decide⟩

/-- C3 witness: the greedy assignment of the main revision instantiated at
a concrete table, both hypotheses discharged at the year column. -/
theorem C3_assignRoles_injective_witness : Role.year = Role.year :=
  C3_assignRoles_injective tblC5 Role.year Role.year 0 (by decide) (by decide)
